import Mathlib

/-!
Verification development for the react-maestro-flow repository.

The flow navigation engine (graph model, skip-chain resolution), the Flow
component effects (entry validation, URL reconciliation, navigation
operations) and the wizard session state manager are embedded as executable
Lean definitions, translated from the TypeScript source.  JavaScript
truthiness on strings (the empty string is falsy) and on optional values is
modelled explicitly by `jsTruthy` and `jsOrNull`.
-/

namespace Maestro

/-- JavaScript truthiness of a `string | null` value: `null` and the empty
string are falsy. -/
def jsTruthy : Option String → Bool
  | none => false
  | some s => s ≠ ""

/-- JavaScript `x || null` on a `string | null` value. -/
def jsOrNull (o : Option String) : Option String :=
  if jsTruthy o then o else none

theorem jsTruthy_none : jsTruthy none = false := rfl

theorem jsTruthy_some_iff (s : String) : jsTruthy (some s) = true ↔ s ≠ "" := by
  simp [jsTruthy]

/-! ### Flow graph data model (src/flow/types.ts) -/

/-- `NextPageResolver`: a fixed page id or a function of the state. -/
inductive NextPageResolver (σ : Type) where
  | fixed (page : String)
  | computed (f : σ → Option String)

/-- A flow node (`FlowNode` in src/flow/types.ts).  The state type is a
parameter; the TypeScript code passes the state through without inspecting
it. -/
structure FlowNode (σ : Type) where
  currentPage : String
  nextPage : Option (NextPageResolver σ)
  previousPageFallback : Option String
  shouldSkip : Option (σ → Bool)

/-- A flow graph: insertion-ordered map of page ids to nodes plus an
optional entry point (`FlowGraph` in src/flow/types.ts).  The `Map` is
modelled as an association list in insertion order. -/
structure FlowGraph (σ : Type) where
  nodes : List (String × FlowNode σ)
  entryPoint : Option String

/-- `graph.nodes.has(page)`. -/
def FlowGraph.hasNode (graph : FlowGraph σ) (page : String) : Bool :=
  graph.nodes.any (fun kv => kv.1 == page)

/-- `getNode`: `graph.nodes.get(page)`. -/
def getNode (graph : FlowGraph σ) (page : String) : Option (FlowNode σ) :=
  (graph.nodes.find? (fun kv => kv.1 == page)).map (·.2)

/-- `shouldSkipStep`: false if the node is missing or has no predicate,
else the predicate evaluated on the state. -/
def shouldSkipStep (graph : FlowGraph σ) (page : String) (state : σ) : Bool :=
  match getNode graph page with
  | none => false
  | some node =>
    match node.shouldSkip with
    | none => false
    | some f => f state

/-- `resolveNextPage`: `if (!node.nextPage) return null` (so a fixed empty
string is falsy and yields null); a function is evaluated on the state;
otherwise the fixed string is returned. -/
def resolveNextPage (node : FlowNode σ) (state : σ) : Option String :=
  match node.nextPage with
  | none => none
  | some (NextPageResolver.fixed p) => if p = "" then none else some p
  | some (NextPageResolver.computed f) => f state

/-! ### Termination bookkeeping for the visited-set recursions -/

/-- The page ids of a graph, in insertion order. -/
def FlowGraph.keys (graph : FlowGraph σ) : List String :=
  graph.nodes.map Prod.fst

/-- Number of graph keys not yet in the visited list: the measure that the
visited-set recursions strictly decrease. -/
def unvisitedCount (keys visited : List String) : Nat :=
  (keys.filter (fun k => !(visited.contains k))).length

theorem contains_eq_decide_mem (l : List String) (a : String) :
    l.contains a = decide (a ∈ l) :=
  List.elem_eq_mem a l

theorem unvisitedCount_eq_mem (keys visited : List String) :
    unvisitedCount keys visited
      = (keys.filter (fun k => !decide (k ∈ visited))).length := by
  unfold unvisitedCount
  congr 1
  apply List.filter_congr
  intro k _
  rw [contains_eq_decide_mem]

theorem len_filter_mem_cons_le (l visited : List String) (page : String) :
    (l.filter (fun k => !decide (k ∈ (page :: visited)))).length
      ≤ (l.filter (fun k => !decide (k ∈ visited))).length := by
  apply List.Sublist.length_le
  apply List.monotone_filter_right
  intro a ha
  simp only [Bool.not_eq_true', decide_eq_false_iff_not, List.mem_cons] at ha ⊢
  exact fun h => ha (Or.inr h)

theorem len_filter_mem_cons_lt (l : List String) (visited : List String)
    (page : String) (hk : page ∈ l) (hv : page ∉ visited) :
    (l.filter (fun k => !decide (k ∈ (page :: visited)))).length
      < (l.filter (fun k => !decide (k ∈ visited))).length := by
  induction l with
  | nil => cases hk
  | cons a l ih =>
    rw [List.filter_cons, List.filter_cons]
    by_cases hap : a = page
    · subst hap
      rw [if_neg (by simp), if_pos (by simp [hv])]
      simp only [List.length_cons]
      exact Nat.lt_succ_of_le (len_filter_mem_cons_le l visited a)
    · have hk' : page ∈ l := by
        rcases List.mem_cons.mp hk with h | h
        · exact absurd h.symm hap
        · exact h
      by_cases hav : a ∈ visited
      · rw [if_neg (by simp [hav]), if_neg (by simp [hav])]
        exact ih hk'
      · rw [if_pos (by simp [hav, hap]), if_pos (by simp [hav])]
        simp only [List.length_cons]
        exact Nat.succ_lt_succ (ih hk')

theorem unvisitedCount_cons_lt (keys visited : List String) (page : String)
    (hk : page ∈ keys) (hv : page ∉ visited) :
    unvisitedCount keys (page :: visited) < unvisitedCount keys visited := by
  rw [unvisitedCount_eq_mem, unvisitedCount_eq_mem]
  exact len_filter_mem_cons_lt keys visited page hk hv

theorem getNode_mem_keys {graph : FlowGraph σ} {page : String} {node : FlowNode σ}
    (h : getNode graph page = some node) : page ∈ graph.keys := by
  unfold getNode at h
  cases hf : graph.nodes.find? (fun kv => kv.1 == page) with
  | none => simp [hf] at h
  | some kv =>
    have hmem := List.mem_of_find?_eq_some hf
    have hkey := List.find?_some hf
    have : kv.1 = page := by simpa using hkey
    subst this
    exact List.mem_map.mpr ⟨kv, hmem, rfl⟩

/-! ### Skip-chain resolution (src/flow/FlowContext.tsx, graph helpers) -/

/-- `getNextNonSkippedPage`: recursively finds the next non-skipped page,
guarding against cycles with the visited set. -/
def getNextNonSkippedPage (graph : FlowGraph σ) (page : String) (state : σ)
    (visited : List String) : Option String :=
  if hvis : visited.contains page then none
  else if shouldSkipStep graph page state then
    match h : getNode graph page with
    | none => none
    | some node =>
      match resolveNextPage node state with
      | none => none
      | some nextPage =>
        if nextPage = "" ∨ graph.hasNode nextPage = false then none
        else getNextNonSkippedPage graph nextPage state (page :: visited)
  else some page
termination_by unvisitedCount graph.keys visited
decreasing_by
  exact unvisitedCount_cons_lt graph.keys visited page (getNode_mem_keys h)
    (by rw [contains_eq_decide_mem] at hvis; simpa using hvis)

/-- `getNextPage`: resolve the direct next of the current node, validate it,
then walk the skip chain from the resolved id. -/
def getNextPage (graph : FlowGraph σ) (currentPage : String) (state : σ) :
    Option String :=
  match getNode graph currentPage with
  | none => none
  | some currentNode =>
    match resolveNextPage currentNode state with
    | none => none
    | some nextPage =>
      if nextPage = "" then none
      else if graph.hasNode nextPage = false then none
      else getNextNonSkippedPage graph nextPage state []

/-- `getPreviousNonSkippedPage`: the backward walk through
`previousPageFallback` links, cycle-guarded like the forward walk. -/
def getPreviousNonSkippedPage (graph : FlowGraph σ) (page : String) (state : σ)
    (visited : List String) : Option String :=
  if hvis : visited.contains page then none
  else
    match h : getNode graph page with
    | none => none
    | some node =>
      match node.previousPageFallback with
      | none => none
      | some prev =>
        if prev = "" then none
        else if graph.hasNode prev = false then none
        else if shouldSkipStep graph prev state then
          getPreviousNonSkippedPage graph prev state (page :: visited)
        else some prev
termination_by unvisitedCount graph.keys visited
decreasing_by
  exact unvisitedCount_cons_lt graph.keys visited page (getNode_mem_keys h)
    (by rw [contains_eq_decide_mem] at hvis; simpa using hvis)

/-- `getPreviousPage`: check the fallback of the current node, then walk the
skip chain starting at the current page. -/
def getPreviousPage (graph : FlowGraph σ) (currentPage : String) (state : σ) :
    Option String :=
  match getNode graph currentPage with
  | none => none
  | some currentNode =>
    match currentNode.previousPageFallback with
    | none => none
    | some prev =>
      if prev = "" then none
      else if graph.hasNode prev = false then none
      else getPreviousNonSkippedPage graph currentPage state []

/-! ### Unfolding lemmas for the two recursive walks -/

theorem bool_ne_true {b : Bool} (h : b = false) : ¬(b = true) := by
  simp [h]

theorem gnnsp_visited {graph : FlowGraph σ} {page : String} {state : σ}
    {visited : List String} (hvis : visited.contains page = true) :
    getNextNonSkippedPage graph page state visited = none := by
  rw [getNextNonSkippedPage.eq_def]
  rw [dif_pos hvis]

theorem gnnsp_not_skipped {graph : FlowGraph σ} {page : String} {state : σ}
    {visited : List String} (hvis : visited.contains page = false)
    (hskip : shouldSkipStep graph page state = false) :
    getNextNonSkippedPage graph page state visited = some page := by
  rw [getNextNonSkippedPage.eq_def]
  rw [dif_neg (bool_ne_true hvis), if_neg (bool_ne_true hskip)]

theorem gnnsp_skipped {graph : FlowGraph σ} {page : String} {state : σ}
    {visited : List String} {node : FlowNode σ}
    (hvis : visited.contains page = false)
    (hskip : shouldSkipStep graph page state = true)
    (hnode : getNode graph page = some node) :
    getNextNonSkippedPage graph page state visited =
      match resolveNextPage node state with
      | none => none
      | some nextPage =>
        if nextPage = "" ∨ graph.hasNode nextPage = false then none
        else getNextNonSkippedPage graph nextPage state (page :: visited) := by
  rw [getNextNonSkippedPage.eq_def]
  rw [dif_neg (bool_ne_true hvis), if_pos hskip]
  split
  · rename_i heq
    rw [hnode] at heq
    cases heq
  · rename_i node2 heq
    rw [hnode] at heq
    cases heq
    rfl

theorem gpnsp_visited {graph : FlowGraph σ} {page : String} {state : σ}
    {visited : List String} (hvis : visited.contains page = true) :
    getPreviousNonSkippedPage graph page state visited = none := by
  rw [getPreviousNonSkippedPage.eq_def]
  rw [dif_pos hvis]

theorem gpnsp_node_none {graph : FlowGraph σ} {page : String} {state : σ}
    {visited : List String} (hvis : visited.contains page = false)
    (hnode : getNode graph page = none) :
    getPreviousNonSkippedPage graph page state visited = none := by
  rw [getPreviousNonSkippedPage.eq_def]
  rw [dif_neg (bool_ne_true hvis)]
  split
  · rfl
  · rename_i node2 heq
    rw [hnode] at heq
    cases heq

theorem gpnsp_step {graph : FlowGraph σ} {page : String} {state : σ}
    {visited : List String} {node : FlowNode σ}
    (hvis : visited.contains page = false)
    (hnode : getNode graph page = some node) :
    getPreviousNonSkippedPage graph page state visited =
      match node.previousPageFallback with
      | none => none
      | some prev =>
        if prev = "" then none
        else if graph.hasNode prev = false then none
        else if shouldSkipStep graph prev state then
          getPreviousNonSkippedPage graph prev state (page :: visited)
        else some prev := by
  rw [getPreviousNonSkippedPage.eq_def]
  rw [dif_neg (bool_ne_true hvis)]
  split
  · rename_i heq
    rw [hnode] at heq
    cases heq
  · rename_i node2 heq
    rw [hnode] at heq
    cases heq
    rfl

/-- If a page is reported as skipped, its node is present in the graph. -/
theorem shouldSkipStep_getNode {graph : FlowGraph σ} {page : String} {state : σ}
    (h : shouldSkipStep graph page state = true) :
    ∃ node, getNode graph page = some node := by
  unfold shouldSkipStep at h
  cases hg : getNode graph page with
  | none => rw [hg] at h; cases h
  | some node => exact ⟨node, rfl⟩

/-! ### Fuel-indexed variants of the walks

These count call depth explicitly; the equivalence theorems below bound the
recursion depth of the visited-set walks by the number of graph nodes. -/

def getNextNonSkippedPageFuel (fuel : Nat) (graph : FlowGraph σ) (page : String)
    (state : σ) (visited : List String) : Option String :=
  match fuel with
  | 0 => none
  | fuel' + 1 =>
    if visited.contains page then none
    else if shouldSkipStep graph page state then
      match getNode graph page with
      | none => none
      | some node =>
        match resolveNextPage node state with
        | none => none
        | some nextPage =>
          if nextPage = "" ∨ graph.hasNode nextPage = false then none
          else getNextNonSkippedPageFuel fuel' graph nextPage state (page :: visited)
    else some page

def getPreviousNonSkippedPageFuel (fuel : Nat) (graph : FlowGraph σ) (page : String)
    (state : σ) (visited : List String) : Option String :=
  match fuel with
  | 0 => none
  | fuel' + 1 =>
    if visited.contains page then none
    else
      match getNode graph page with
      | none => none
      | some node =>
        match node.previousPageFallback with
        | none => none
        | some prev =>
          if prev = "" then none
          else if graph.hasNode prev = false then none
          else if shouldSkipStep graph prev state then
            getPreviousNonSkippedPageFuel fuel' graph prev state (page :: visited)
          else some prev

/-! ### Graph construction (registerNode / initializeFlow) -/

def createFlowGraph : FlowGraph σ := ⟨[], none⟩

/-- `registerNode` — the TypeScript function mutates the graph and throws on
a duplicate id; the embedding returns `Except`. -/
def registerNode (graph : FlowGraph σ) (node : FlowNode σ) :
    Except String (FlowGraph σ) :=
  if graph.hasNode node.currentPage then
    Except.error "Node with currentPage already exists in graph"
  else
    Except.ok ⟨graph.nodes ++ [(node.currentPage, node)],
      if jsTruthy graph.entryPoint then graph.entryPoint
      else some node.currentPage⟩

/-- `initializeFlow`: register nodes in order, then apply the explicit entry
point override (`if (entryPoint)` is a JavaScript truthiness test). -/
def initializeFlow (nodes : List (FlowNode σ)) (entryPoint : Option String) :
    Except String (FlowGraph σ) :=
  match nodes.foldlM (fun g n => registerNode g n) createFlowGraph with
  | Except.error e => Except.error e
  | Except.ok graph =>
    if jsTruthy entryPoint then
      if graph.hasNode (entryPoint.getD "") = false then
        Except.error "Entry point does not exist in nodes"
      else Except.ok ⟨graph.nodes, entryPoint⟩
    else Except.ok graph

/-! ### Flow component models (src/flow/Flow.tsx) -/

/-- Outcome of the startup validation effect (Flow.tsx lines 210-261): the
page the flow becomes current at.  Every branch of the effect sets the
current page, finishes validating and fires the page-change notification
with `(result, null)`, so the chosen page determines the whole outcome. -/
def validateEntry (graph : FlowGraph σ) (urlPage : Option String)
    (enableState hasState : Bool) : Option String :=
  let entryPoint := jsOrNull graph.entryPoint
  let isEntryPoint := urlPage == entryPoint
  if isEntryPoint || !(jsTruthy urlPage) then
    if jsTruthy urlPage then urlPage else entryPoint
  else
    match urlPage with
    | none => none
    | some p =>
      if graph.hasNode p = false then some "__notfound__"
      else if enableState && !hasState then some "__expired__"
      else some p

/-- Result of the `goToNext` callback: `none` models the early returns
(no current page / no next page); otherwise the history mode (replace when
skipping), the new page, and the page-change notification payload. -/
structure GoToNextResult where
  isReplace : Bool
  newPage : String
  notifyPage : String
  notifyPrevious : Option String
deriving DecidableEq

/-- `currentNode ? resolveNextPage(currentNode, allState) : null` — the
directly resolved next id of the current node. -/
def directNextOf (graph : FlowGraph σ) (cur : String) (state : σ) :
    Option String :=
  match getNode graph cur with
  | some n => resolveNextPage n state
  | none => none

/-- `goToNext` (Flow.tsx lines 422-457), as a pure function of the graph,
the tracked current page and the accumulated state. -/
def goToNext (graph : FlowGraph σ) (currentPage : Option String) (state : σ) :
    Option GoToNextResult :=
  match currentPage with
  | none => none
  | some cur =>
    if cur = "" then none
    else
      match getNextPage graph cur state with
      | none => none
      | some nextPage =>
        if nextPage = "" then none
        else
          let directNext := directNextOf graph cur state
          let isSkipping := directNext.isSome && !(directNext == some nextPage)
          some ⟨isSkipping, nextPage, nextPage, some cur⟩

/-- URL mutations issued through the params adapter: `setParam` pushes a new
history entry, `replaceParam` replaces the current one. -/
inductive UrlAction where
  | push (page : String)
  | replace (page : String)
deriving DecidableEq

/-- Observable outcome of one run of the reconciliation effect: the tracked
current page after the run, the URL actions and page-change notifications in
order, the initialization flag, and whether state pre-registration ran. -/
structure ReconcileResult where
  currentPage : Option String
  urlActions : List UrlAction
  notifications : List (Option String × Option String)
  hasInitialized : Bool
  preRegistered : Bool
deriving DecidableEq

/-- `currentPage === "__expired__" || currentPage === "__notfound__"`. -/
def isErrorPage (currentPage : Option String) : Bool :=
  currentPage == some "__expired__" || currentPage == some "__notfound__"

/-- The reconciliation effect (Flow.tsx lines 267-390) as a pure function.
Inputs: the URL page parameter (`params[pageParamName] ?? null`), the
tracked current page, whether persisted state is enabled, whether the
session id has stored state, and the initialization ref.  The React
`currentPage` closure variable stays fixed during one run, while
`setCurrentPage` calls are accumulated; the result records the last one. -/
def reconcile (graph : FlowGraph σ) (urlPage currentPage : Option String)
    (enableState hasState hasInitialized : Bool) (state : σ) : ReconcileResult :=
  let entryPoint := jsOrNull graph.entryPoint
  let isEntryPoint := urlPage == entryPoint
  let uuidExists := enableState && hasState
  let cont : List (Option String × Option String) → Option String → ReconcileResult :=
    fun notifs cur2 =>
      let hi :=
        if enableState then
          if !hasInitialized && !uuidExists && (isEntryPoint || !(jsTruthy urlPage)) then
            (true, true)
          else if uuidExists then (true, false)
          else (hasInitialized, false)
        else (true, false)
      if jsTruthy urlPage && !(urlPage == currentPage)
          && graph.hasNode (urlPage.getD "") then
        if shouldSkipStep graph (urlPage.getD "") state then
          let prevFromCurrent :=
            if jsTruthy currentPage then
              getPreviousPage graph (currentPage.getD "") state
            else none
          let isGoingBack := prevFromCurrent == urlPage
          let targetPage :=
            if isGoingBack then getPreviousPage graph (urlPage.getD "") state
            else getNextPage graph (urlPage.getD "") state
          if jsTruthy targetPage then
            ⟨targetPage, [UrlAction.replace (targetPage.getD "")],
              notifs ++ [(targetPage, currentPage)], hi.1, hi.2⟩
          else ⟨cur2, [], notifs, hi.1, hi.2⟩
        else ⟨urlPage, [], notifs ++ [(urlPage, currentPage)], hi.1, hi.2⟩
      else if !(jsTruthy urlPage) then
        if jsTruthy entryPoint && !(entryPoint == currentPage) then
          ⟨entryPoint, [UrlAction.push (entryPoint.getD "")],
            notifs ++ [(entryPoint, currentPage)], hi.1, hi.2⟩
        else if !(jsTruthy entryPoint) && jsTruthy currentPage then
          ⟨none, [], notifs ++ [(none, currentPage)], hi.1, hi.2⟩
        else ⟨cur2, [], notifs, hi.1, hi.2⟩
      else ⟨cur2, [], notifs, hi.1, hi.2⟩
  if jsTruthy urlPage && !(graph.hasNode (urlPage.getD "")) then
    if !(currentPage == some "__notfound__") then
      ⟨some "__notfound__", [], [(some "__notfound__", currentPage)],
        hasInitialized, false⟩
    else ⟨currentPage, [], [], hasInitialized, false⟩
  else if enableState && !uuidExists && jsTruthy urlPage && !isEntryPoint then
    if !(currentPage == some "__expired__") then
      ⟨some "__expired__", [], [(some "__expired__", currentPage)],
        hasInitialized, false⟩
    else ⟨currentPage, [], [], hasInitialized, false⟩
  else
    let recovered : Bool := isErrorPage currentPage && jsTruthy urlPage
      && graph.hasNode (urlPage.getD "")
    let recov1 : List (Option String × Option String) :=
      if recovered then [(urlPage, currentPage)] else []
    let cur1 := if recovered then urlPage else currentPage
    if isErrorPage currentPage then
      if jsTruthy urlPage && !(urlPage == currentPage)
          && graph.hasNode (urlPage.getD "")
          && (if enableState then uuidExists else true) then
        cont (recov1 ++ [(urlPage, currentPage)]) urlPage
      else ⟨cur1, [], recov1, hasInitialized, false⟩
    else cont recov1 cur1

/-! ### Wizard graph model (src/wizard, backing the wizard state manager)

The wizard node shape differs from the flow one: the id field is `page`,
the back link is `previous`, and `next` may be a string, an array of
strings, or a function. -/

/-- The wizard `next` field: `string | string[] | function`. -/
inductive WNextVal (σ : Type) where
  | one (page : String)
  | many (pages : List String)
  | fn (f : σ → Option (Sum String (List String)))

structure WizardNode (σ : Type) where
  page : String
  previous : Option String
  next : Option (WNextVal σ)
  shouldSkip : Option (σ → Bool)

structure WizardGraph (σ : Type) where
  nodes : List (String × WizardNode σ)
  entryPoint : Option String

def WizardGraph.keys (graph : WizardGraph σ) : List String :=
  graph.nodes.map Prod.fst

def wGetNode (graph : WizardGraph σ) (page : String) : Option (WizardNode σ) :=
  (graph.nodes.find? (fun kv => kv.1 == page)).map (·.2)

theorem wGetNode_mem_keys {graph : WizardGraph σ} {page : String}
    {node : WizardNode σ} (h : wGetNode graph page = some node) :
    page ∈ graph.keys := by
  unfold wGetNode at h
  cases hf : graph.nodes.find? (fun kv => kv.1 == page) with
  | none => simp [hf] at h
  | some kv =>
    have hmem := List.mem_of_find?_eq_some hf
    have hkey := List.find?_some hf
    have : kv.1 = page := by simpa using hkey
    subst this
    exact List.mem_map.mpr ⟨kv, hmem, rfl⟩

/-- The `next` pages the `getPagesInOrder` traversal follows:
`node.next && typeof node.next !== "function"` guards the loop, and
`Array.isArray(node.next) ? node.next : [node.next]` builds the list
(the empty string is falsy and is not traversed). -/
def traverseNexts (node : WizardNode σ) : List String :=
  match node.next with
  | none => []
  | some (WNextVal.fn _) => []
  | some (WNextVal.one p) => if p = "" then [] else [p]
  | some (WNextVal.many ps) => ps

/-- Mutable state of the `getPagesInOrder` depth-first traversal. -/
structure VisitSt where
  visited : List String
  result : List String

theorem contains_cons_of {l : List String} {a b : String}
    (h : l.contains a = true) : (b :: l).contains a = true := by
  rw [contains_eq_decide_mem] at h ⊢
  simp only [decide_eq_true_eq] at h ⊢
  exact List.mem_cons_of_mem b h

theorem unvisitedCount_le_of_superset {keys v1 v2 : List String}
    (h : ∀ k, v1.contains k = true → v2.contains k = true) :
    unvisitedCount keys v2 ≤ unvisitedCount keys v1 := by
  apply List.Sublist.length_le
  apply List.monotone_filter_right
  intro a ha
  simp only [Bool.not_eq_true'] at ha ⊢
  cases hv1 : v1.contains a with
  | false => rfl
  | true => rw [h a hv1] at ha; cases ha

mutual

/-- The recursive `visit` closure of `getPagesInOrder` (wizard graph
version): skip if visited, else mark visited, visit `previous` first, push
the page, then visit the non-function `next` targets.  The return value
carries the fact that the visited set only grows, which drives
termination. -/
def visitPage (graph : WizardGraph σ) (page : String) (s : VisitSt) :
    {t : VisitSt // ∀ k, s.visited.contains k = true → t.visited.contains k = true} :=
  if hvis : s.visited.contains page then ⟨s, fun _ h => h⟩
  else
    let s1 : VisitSt := ⟨page :: s.visited, s.result⟩
    match h : wGetNode graph page with
    | none => ⟨s1, fun k hk => contains_cons_of hk⟩
    | some node =>
      let r2 : {t : VisitSt // ∀ k, s1.visited.contains k = true → t.visited.contains k = true} :=
        match node.previous with
        | none => ⟨s1, fun _ h => h⟩
        | some prev =>
          if prev = "" then ⟨s1, fun _ h => h⟩
          else visitPage graph prev s1
      let s3 : VisitSt := ⟨r2.1.visited, r2.1.result ++ [page]⟩
      let r4 := visitList graph (traverseNexts node) s3
      ⟨r4.1, fun k hk => r4.2 k (r2.2 k (contains_cons_of hk))⟩
termination_by (unvisitedCount graph.keys s.visited, 0)
decreasing_by
  · apply Prod.Lex.left
    exact unvisitedCount_cons_lt graph.keys s.visited page (wGetNode_mem_keys h)
      (by rw [contains_eq_decide_mem] at hvis; simpa using hvis)
  · rcases Nat.lt_or_ge (unvisitedCount graph.keys r2.1.visited)
      (unvisitedCount graph.keys s.visited) with hlt | hge
    · exact Prod.Lex.left _ _ hlt
    · exfalso
      have h1 : unvisitedCount graph.keys s1.visited
          < unvisitedCount graph.keys s.visited :=
        unvisitedCount_cons_lt graph.keys s.visited page (wGetNode_mem_keys h)
          (by rw [contains_eq_decide_mem] at hvis; simpa using hvis)
      have h2 : unvisitedCount graph.keys r2.1.visited
          ≤ unvisitedCount graph.keys s1.visited :=
        unvisitedCount_le_of_superset r2.2
      omega

/-- The loop of `visit` calls over a list of pages (both the `next` targets
loop and the final loop over all remaining graph keys: `visit` itself skips
already-visited pages, so the guarded remainder loop is the same). -/
def visitList (graph : WizardGraph σ) (pages : List String) (s : VisitSt) :
    {t : VisitSt // ∀ k, s.visited.contains k = true → t.visited.contains k = true} :=
  match pages with
  | [] => ⟨s, fun _ h => h⟩
  | p :: ps =>
    let r1 := visitPage graph p s
    let r2 := visitList graph ps r1.1
    ⟨r2.1, fun k hk => r2.2 k (r1.2 k hk)⟩
termination_by (unvisitedCount graph.keys s.visited, pages.length + 1)
decreasing_by
  · exact Prod.Lex.right _ (Nat.succ_pos _)
  · rcases Nat.lt_or_ge (unvisitedCount graph.keys r1.1.visited)
      (unvisitedCount graph.keys s.visited) with hlt | hge
    · exact Prod.Lex.left _ _ hlt
    · have hle : unvisitedCount graph.keys r1.1.visited
          ≤ unvisitedCount graph.keys s.visited :=
        unvisitedCount_le_of_superset r1.2
      have heq : unvisitedCount graph.keys r1.1.visited
          = unvisitedCount graph.keys s.visited := le_antisymm hle hge
      rw [heq]
      have hlen : (p :: ps).length = ps.length + 1 := rfl
      exact Prod.Lex.right _ (by omega)

end

/-- `getPagesInOrder` (wizard version): DFS from the entry point when it is
truthy, then over all remaining keys. -/
def getPagesInOrder (graph : WizardGraph σ) : List String :=
  let s0 : VisitSt := ⟨[], []⟩
  let s1 :=
    if jsTruthy graph.entryPoint then
      (visitPage graph (graph.entryPoint.getD "") s0).1
    else s0
  (visitList graph graph.keys s1).1.result

/-! ### WizardStateManager (wizard state manager source file)

Sessions are stored under one key per uuid; the stored blob is either a
well-formed serialized entry list or a corrupt raw string (whose parse
fails).  `Storage.writeFails` models a `setItem` call that throws (quota);
the manager catches it.  The medium itself is optional: `none` models
`typeof window === "undefined" || !window.sessionStorage`.  Values stored
in page state are an arbitrary type `V`; a JavaScript object is an
association list with first-match lookup and in-place update.

This blob model covers manager-consistent storage: contents the manager
itself writes, or strings whose parse fails.  Session storage can also
hold successfully parsed payloads of the wrong shape, which the unchecked
`JSON.parse(stored) as PageStateEntry[]` cast lets flow on; the raw-JSON
model further below (`JsonShape`, `RawBlob`) expresses those and the
TypeErrors they cause. -/

structure PageStateEntry (V : Type) where
  page : String
  state : List (String × V)
deriving DecidableEq

inductive StoredBlob (V : Type) where
  | good (entries : List (PageStateEntry V))
  | corrupt (raw : String)
deriving DecidableEq

structure Storage (V : Type) where
  items : List (String × StoredBlob V)
  writeFails : Bool
deriving DecidableEq

abbrev Medium (V : Type) := Option (Storage V)

/-- JavaScript object property write: replace the first binding in place or
append a new one. -/
def objSet : List (String × α) → String → α → List (String × α)
  | [], k, v => [(k, v)]
  | (k2, v2) :: rest, k, v =>
    if k2 == k then (k, v) :: rest else (k2, v2) :: objSet rest k v

/-- JavaScript object property read: first binding wins. -/
def objGet (st : List (String × α)) (k : String) : Option α :=
  (st.find? (fun kv => kv.1 == k)).map (·.2)

/-- `Object.assign(target, src)`: write each binding of `src` in order. -/
def objAssign (target src : List (String × α)) : List (String × α) :=
  src.foldl (fun acc kv => objSet acc kv.1 kv.2) target

/-- `removeItem`. -/
def removeKey (items : List (String × α)) (k : String) : List (String × α) :=
  items.filter (fun kv => !(kv.1 == k))

namespace WSM

/-- `getStorageKey`. -/
def storageKey (pfx uuid : String) : String := pfx ++ uuid

/-- `getPageStateEntries`: absent medium, absent key, empty raw string and
unparseable blob all degrade to the empty entry list. -/
def getPageStateEntries (med : Medium V) (pfx uuid : String) :
    List (PageStateEntry V) :=
  match med with
  | none => []
  | some st =>
    match objGet st.items (storageKey pfx uuid) with
    | none => []
    | some (StoredBlob.good entries) => entries
    | some (StoredBlob.corrupt _) => []

/-- `setPageStateEntries`: no-op on an absent medium; a throwing `setItem`
is caught and leaves the storage unchanged. -/
def setPageStateEntries (med : Medium V) (pfx uuid : String)
    (entries : List (PageStateEntry V)) : Medium V :=
  match med with
  | none => med
  | some st =>
    if st.writeFails then some st
    else some ⟨objSet st.items (storageKey pfx uuid) (StoredBlob.good entries),
      st.writeFails⟩

/-- `getState`. -/
def getState (med : Medium V) (pfx uuid page : String) : List (String × V) :=
  match (getPageStateEntries med pfx uuid).find? (fun e => e.page == page) with
  | some entry => entry.state
  | none => []

/-- Replace the state of the first entry for a page, in place. -/
def updateEntryState (entries : List (PageStateEntry V)) (page : String)
    (f : List (String × V) → List (String × V)) : List (PageStateEntry V) :=
  match entries with
  | [] => []
  | e :: rest =>
    if e.page == page then ⟨e.page, f e.state⟩ :: rest
    else e :: updateEntryState rest page f

/-- `setState`: find or append the page entry, set one key, store back. -/
def setState (med : Medium V) (pfx uuid page key : String) (value : V) :
    Medium V :=
  let entries := getPageStateEntries med pfx uuid
  let entries2 :=
    if entries.any (fun e => e.page == page) then
      updateEntryState entries page (fun st => objSet st key value)
    else entries ++ [⟨page, objSet [] key value⟩]
  setPageStateEntries med pfx uuid entries2

/-- `setStateBatch`: like `setState` with `Object.assign`. -/
def setStateBatch (med : Medium V) (pfx uuid page : String)
    (updates : List (String × V)) : Medium V :=
  let entries := getPageStateEntries med pfx uuid
  let entries2 :=
    if entries.any (fun e => e.page == page) then
      updateEntryState entries page (fun st => objAssign st updates)
    else entries ++ [⟨page, objAssign [] updates⟩]
  setPageStateEntries med pfx uuid entries2

/-- `getAllState`: merge every entry state in stored order into one
flattened object (the graph argument is unused in the source). -/
def getAllState (_graph : WizardGraph σ) (med : Medium V) (pfx uuid : String) :
    List (String × V) :=
  (getPageStateEntries med pfx uuid).foldl (fun acc e => objAssign acc e.state) []

/-- The accumulation loop of `getStateUpTo`: walk the ordered pages, merge
each matching entry, stop after the requested page. -/
def getStateUpToLoop (entries : List (PageStateEntry V)) (page : String) :
    List String → List (String × V) → List (String × V)
  | [], acc => acc
  | p :: ps, acc =>
    let acc2 :=
      match entries.find? (fun e => e.page == p) with
      | some e => objAssign acc e.state
      | none => acc
    if p == page then acc2 else getStateUpToLoop entries page ps acc2

/-- `getStateUpTo`. -/
def getStateUpTo (graph : WizardGraph σ) (med : Medium V)
    (pfx uuid page : String) : List (String × V) :=
  getStateUpToLoop (getPageStateEntries med pfx uuid) page
    (getPagesInOrder graph) []

/-- `hasState`: `stored !== null && stored !== ""` (a serialized entry list
is never the empty string; a corrupt raw blob may be). -/
def hasState (med : Medium V) (pfx uuid : String) : Bool :=
  match med with
  | none => false
  | some st =>
    match objGet st.items (storageKey pfx uuid) with
    | none => false
    | some (StoredBlob.good _) => true
    | some (StoredBlob.corrupt raw) => raw ≠ ""

/-- `clearState`: `removeItem` (never throws). -/
def clearState (med : Medium V) (pfx uuid : String) : Medium V :=
  match med with
  | none => med
  | some st => some ⟨removeKey st.items (storageKey pfx uuid), st.writeFails⟩

/-- `clearPageState`. -/
def clearPageState (med : Medium V) (pfx uuid page : String) : Medium V :=
  let entries := getPageStateEntries med pfx uuid
  setPageStateEntries med pfx uuid (entries.filter (fun e => !(e.page == page)))

/-- `preRegisterState`: ensure an empty entry exists for every page of the
graph traversal order. -/
def preRegisterState (graph : WizardGraph σ) (med : Medium V)
    (pfx uuid : String) : Medium V :=
  match med with
  | none => med
  | some _ =>
    let entries := getPageStateEntries med pfx uuid
    let pages := getPagesInOrder graph
    let existing := entries.map (·.page)
    let entries2 := entries ++
      (pages.filter (fun p => !(existing.contains p))).map
        (fun p => (⟨p, []⟩ : PageStateEntry V))
    setPageStateEntries med pfx uuid entries2

end WSM

/-! ### Concrete fixtures used by witnesses and counterexamples -/

/-- Spec §8 skip scenario, with the state `{skip: true}` modelled as the
boolean itself: node `c` has `shouldSkip = state.skip === true`,
`previousFallback = "b"`, `next = "d"`. -/
def nodeB : FlowNode Bool := ⟨"b", some (NextPageResolver.fixed "c"), none, none⟩

def nodeC : FlowNode Bool :=
  ⟨"c", some (NextPageResolver.fixed "d"), some "b", some (fun s => s)⟩

def nodeD : FlowNode Bool := ⟨"d", none, some "c", none⟩

def skipGraph : FlowGraph Bool :=
  ⟨[("b", nodeB), ("c", nodeC), ("d", nodeD)], some "b"⟩

/-- A graph containing a node with the empty-string id, plus a node whose
computed next resolves to that empty id. -/
def nodeEmptyId : FlowNode Unit := ⟨"", none, none, none⟩

def nodeCUnit : FlowNode Unit :=
  ⟨"c", some (NextPageResolver.computed (fun _ => some "")), none, none⟩

def emptyIdGraph : FlowGraph Unit :=
  ⟨[("", nodeEmptyId), ("c", nodeCUnit)], some ""⟩

/-- A one-node graph. -/
def nodeA : FlowNode Unit := ⟨"a", none, none, none⟩

def singleGraph : FlowGraph Unit := ⟨[("a", nodeA)], some "a"⟩

/-! ### Auxiliary facts about the walks -/

theorem gnnsp_result_not_skipped (graph : FlowGraph σ) :
    ∀ (page : String) (state : σ) (visited : List String) (q : String),
      getNextNonSkippedPage graph page state visited = some q →
      shouldSkipStep graph q state = false := by
  intro page state visited
  induction page, state, visited using getNextNonSkippedPage.induct graph with
  | case1 page state visited hvis =>
    intro q hq
    rw [gnnsp_visited hvis] at hq
    cases hq
  | case2 page state visited hvis hskip hnode =>
    intro q hq
    rw [getNextNonSkippedPage.eq_def, dif_neg hvis, if_pos hskip] at hq
    split at hq
    · cases hq
    · rename_i node2 heq
      rw [hnode] at heq
      cases heq
  | case3 page state visited hvis hskip node hnode hres =>
    intro q hq
    have hv : visited.contains page = false := by simpa using hvis
    rw [gnnsp_skipped hv hskip hnode, hres] at hq
    cases hq
  | case4 page state visited hvis hskip node hnode s hres hcond =>
    intro q hq
    have hv : visited.contains page = false := by simpa using hvis
    rw [gnnsp_skipped hv hskip hnode, hres] at hq
    have hq2 : (if s = "" ∨ graph.hasNode s = false then none
        else getNextNonSkippedPage graph s state (page :: visited)) = some q := hq
    rw [if_pos hcond] at hq2
    cases hq2
  | case5 page state visited hvis hskip node hnode s hres hcond ih =>
    intro q hq
    have hv : visited.contains page = false := by simpa using hvis
    rw [gnnsp_skipped hv hskip hnode, hres] at hq
    have hq2 : (if s = "" ∨ graph.hasNode s = false then none
        else getNextNonSkippedPage graph s state (page :: visited)) = some q := hq
    rw [if_neg hcond] at hq2
    exact ih q hq2
  | case6 page state visited hvis hskip =>
    intro q hq
    have hv : visited.contains page = false := by simpa using hvis
    rw [gnnsp_not_skipped hv (by simpa using hskip)] at hq
    cases hq
    simpa using hskip

theorem gnnsp_result_ne_empty (graph : FlowGraph σ) :
    ∀ (page : String) (state : σ) (visited : List String) (q : String),
      page ≠ "" →
      getNextNonSkippedPage graph page state visited = some q → q ≠ "" := by
  intro page state visited
  induction page, state, visited using getNextNonSkippedPage.induct graph with
  | case1 page state visited hvis =>
    intro q _ hq
    rw [gnnsp_visited hvis] at hq
    cases hq
  | case2 page state visited hvis hskip hnode =>
    intro q _ hq
    rw [getNextNonSkippedPage.eq_def, dif_neg hvis, if_pos hskip] at hq
    split at hq
    · cases hq
    · rename_i node2 heq
      rw [hnode] at heq
      cases heq
  | case3 page state visited hvis hskip node hnode hres =>
    intro q _ hq
    have hv : visited.contains page = false := by simpa using hvis
    rw [gnnsp_skipped hv hskip hnode, hres] at hq
    cases hq
  | case4 page state visited hvis hskip node hnode s hres hcond =>
    intro q _ hq
    have hv : visited.contains page = false := by simpa using hvis
    rw [gnnsp_skipped hv hskip hnode, hres] at hq
    have hq2 : (if s = "" ∨ graph.hasNode s = false then none
        else getNextNonSkippedPage graph s state (page :: visited)) = some q := hq
    rw [if_pos hcond] at hq2
    cases hq2
  | case5 page state visited hvis hskip node hnode s hres hcond ih =>
    intro q _ hq
    have hv : visited.contains page = false := by simpa using hvis
    rw [gnnsp_skipped hv hskip hnode, hres] at hq
    have hq2 : (if s = "" ∨ graph.hasNode s = false then none
        else getNextNonSkippedPage graph s state (page :: visited)) = some q := hq
    rw [if_neg hcond] at hq2
    have hs : s ≠ "" := fun he => hcond (Or.inl he)
    exact ih q hs hq2
  | case6 page state visited hvis hskip =>
    intro q hpage hq
    have hv : visited.contains page = false := by simpa using hvis
    rw [gnnsp_not_skipped hv (by simpa using hskip)] at hq
    cases hq
    exact hpage

theorem getNextPage_ne_empty {graph : FlowGraph σ} {c : String} {state : σ}
    {q : String} (h : getNextPage graph c state = some q) : q ≠ "" := by
  unfold getNextPage at h
  cases hn : getNode graph c with
  | none => rw [hn] at h; cases h
  | some node =>
    rw [hn] at h
    have h1 : (match resolveNextPage node state with
        | none => none
        | some nextPage =>
          if nextPage = "" then none
          else if graph.hasNode nextPage = false then none
          else getNextNonSkippedPage graph nextPage state []) = some q := h
    cases hr : resolveNextPage node state with
    | none => rw [hr] at h1; cases h1
    | some np =>
      rw [hr] at h1
      have h2 : (if np = "" then none
          else if graph.hasNode np = false then none
          else getNextNonSkippedPage graph np state []) = some q := h1
      by_cases hnp : np = ""
      · rw [if_pos hnp] at h2; cases h2
      · rw [if_neg hnp] at h2
        by_cases hhas : graph.hasNode np = false
        · rw [if_pos hhas] at h2; cases h2
        · rw [if_neg hhas] at h2
          exact gnnsp_result_ne_empty graph np state [] q hnp h2

/-! ### Claim C1 -/

/-- C1: for every graph, page id and state, `getNextNonSkippedPage` returns
either null or a page id whose `shouldSkipStep` is false. -/
theorem C1_nextNonSkipped_never_skipped {σ : Type} (graph : FlowGraph σ)
    (page : String) (state : σ) (q : String)
    (h : getNextNonSkippedPage graph page state [] = some q) :
    shouldSkipStep graph q state = false :=
  gnnsp_result_not_skipped graph page state [] q h

/-- C1 witness: on the §8 scenario graph with `{skip: true}`, the walk from
`c` returns `d`, and `d` is indeed not skipped. -/
theorem C1_witness :
    getNextNonSkippedPage skipGraph "c" true [] = some "d"
    ∧ shouldSkipStep skipGraph "d" true = false := by
  have e1 : getNextNonSkippedPage skipGraph "c" true []
      = getNextNonSkippedPage skipGraph "d" true ["c"] := by
    rw [@gnnsp_skipped Bool skipGraph "c" true [] nodeC rfl rfl rfl]
    rfl
  have e2 : getNextNonSkippedPage skipGraph "d" true ["c"] = some "d" :=
    gnnsp_not_skipped rfl rfl
  have h := e1.trans e2
  exact ⟨h, C1_nextNonSkipped_never_skipped skipGraph "c" true "d" h⟩

/-! ### Claim C2 -/

/-- C2 counterexample: in `emptyIdGraph`, node `c` resolves its direct next
to the empty string, which is itself a node of the graph whose skip walk
returns it unchanged; the claim therefore requires
`getNextPage(g, "c", s)` to be that skip-walk result (the empty id), but
the code treats the empty resolved id as falsy and returns null. -/
theorem C2_counterexample :
    resolveNextPage nodeCUnit () = some ""
    ∧ emptyIdGraph.hasNode "" = true
    ∧ getNextNonSkippedPage emptyIdGraph "" () [] = some ""
    ∧ getNextPage emptyIdGraph "c" () = none := by
  refine ⟨rfl, rfl, ?_, rfl⟩
  exact gnnsp_not_skipped rfl rfl

/-- C2 (amended): `getNextPage` returns null when the current id is not a
node, when the resolved direct next is null or the empty string, and (after
warning) when the non-empty resolved id is not a node of the graph;
otherwise it returns the skip walk from the resolved id — so the direct
next is itself subject to skip-walking, and in the §8 scenario
`getNextPage(g, "b", {skip: true})` is `"d"`. -/
theorem C2_getNextPage_spec {σ : Type} (graph : FlowGraph σ) (c : String)
    (state : σ) :
    (getNode graph c = none → getNextPage graph c state = none)
    ∧ (∀ node, getNode graph c = some node →
        (resolveNextPage node state = none → getNextPage graph c state = none)
        ∧ (resolveNextPage node state = some "" →
            getNextPage graph c state = none)
        ∧ (∀ np, resolveNextPage node state = some np → np ≠ "" →
            (graph.hasNode np = false → getNextPage graph c state = none)
            ∧ (graph.hasNode np = true →
                getNextPage graph c state
                  = getNextNonSkippedPage graph np state [])))
    ∧ getNextPage skipGraph "b" true = some "d" := by
  refine ⟨?_, ?_, ?_⟩
  · intro h
    unfold getNextPage
    rw [h]
  · intro node hnode
    have hbody : getNextPage graph c state
        = (match resolveNextPage node state with
          | none => none
          | some nextPage =>
            if nextPage = "" then none
            else if graph.hasNode nextPage = false then none
            else getNextNonSkippedPage graph nextPage state []) := by
      unfold getNextPage
      rw [hnode]
    refine ⟨?_, ?_, ?_⟩
    · intro hres
      rw [hbody, hres]
    · intro hres
      rw [hbody, hres]
      rfl
    · intro np hres hnp
      refine ⟨?_, ?_⟩
      · intro hhas
        rw [hbody, hres]
        have : (if np = "" then none
            else if graph.hasNode np = false then none
            else getNextNonSkippedPage graph np state [])
            = (none : Option String) := by
          rw [if_neg hnp, if_pos hhas]
        exact this
      · intro hhas
        rw [hbody, hres]
        have : (if np = "" then none
            else if graph.hasNode np = false then none
            else getNextNonSkippedPage graph np state [])
            = getNextNonSkippedPage graph np state [] := by
          rw [if_neg hnp, if_neg (by simp [hhas])]
        exact this
  · have e0 : getNextPage skipGraph "b" true
        = getNextNonSkippedPage skipGraph "c" true [] := rfl
    have e1 : getNextNonSkippedPage skipGraph "c" true []
        = getNextNonSkippedPage skipGraph "d" true ["c"] := by
      rw [@gnnsp_skipped Bool skipGraph "c" true [] nodeC rfl rfl rfl]
      rfl
    have e2 : getNextNonSkippedPage skipGraph "d" true ["c"] = some "d" :=
      gnnsp_not_skipped rfl rfl
    exact (e0.trans e1).trans e2

/-- C2 witness for the amended claim: the §8 scenario value extracted
through the theorem, plus the missing-node case at a concrete input. -/
theorem C2_witness :
    getNextPage skipGraph "b" true = some "d"
    ∧ getNextPage emptyIdGraph "x" () = none :=
  ⟨(C2_getNextPage_spec skipGraph "b" true).2.2,
    (C2_getNextPage_spec emptyIdGraph "x" ()).1 rfl⟩

/-! ### Claim C4 -/

/-- C4: `goToNext` is a no-op when no next non-skipped page exists from the
(non-empty) current page; otherwise it moves to the final post-skip target,
replacing exactly when the directly resolved next id is non-null and
differs from that target (pushing otherwise), and fires the page-change
notification `(new, previous)`. -/
theorem C4_goToNext_spec {σ : Type} (graph : FlowGraph σ) (cur : String)
    (state : σ) (hcur : cur ≠ "") :
    (getNextPage graph cur state = none → goToNext graph (some cur) state = none)
    ∧ (∀ np, getNextPage graph cur state = some np →
        goToNext graph (some cur) state =
          some ⟨(directNextOf graph cur state).isSome
              && !(directNextOf graph cur state == some np),
            np, np, some cur⟩) := by
  have hbody : goToNext graph (some cur) state
      = (if cur = "" then none
        else match getNextPage graph cur state with
        | none => none
        | some nextPage =>
          if nextPage = "" then none
          else
            some ⟨(directNextOf graph cur state).isSome
                && !(directNextOf graph cur state == some nextPage),
              nextPage, nextPage, some cur⟩) := rfl
  rw [if_neg hcur] at hbody
  constructor
  · intro h
    rw [hbody, h]
  · intro np h
    rw [hbody, h]
    have : (if np = "" then none
        else some (⟨(directNextOf graph cur state).isSome
            && !(directNextOf graph cur state == some np),
          np, np, some cur⟩ : GoToNextResult))
        = some ⟨(directNextOf graph cur state).isSome
            && !(directNextOf graph cur state == some np),
          np, np, some cur⟩ := by
      rw [if_neg (getNextPage_ne_empty h)]
    exact this

/-- C4 witness: in the §8 scenario with `{skip: true}`, `goToNext` from `b`
moves to `d` with replace semantics (the direct next `c` differs from the
final target) and notifies `("d", "b")`. -/
theorem C4_witness :
    goToNext skipGraph (some "b") true = some ⟨true, "d", "d", some "b"⟩ := by
  have h : getNextPage skipGraph "b" true = some "d" := by
    have e1 : getNextNonSkippedPage skipGraph "c" true []
        = getNextNonSkippedPage skipGraph "d" true ["c"] := by
      rw [@gnnsp_skipped Bool skipGraph "c" true [] nodeC rfl rfl rfl]
      rfl
    have e2 : getNextNonSkippedPage skipGraph "d" true ["c"] = some "d" :=
      gnnsp_not_skipped rfl rfl
    exact e1.trans e2
  have := (C4_goToNext_spec skipGraph "b" true (by decide)).2 "d" h
  simpa using this

/-! ### Claim C6 -/

theorem gnnspFuel_eq (graph : FlowGraph σ) (state : σ) :
    ∀ (fuel : Nat) (page : String) (visited : List String),
      unvisitedCount graph.keys visited < fuel →
      getNextNonSkippedPageFuel fuel graph page state visited
        = getNextNonSkippedPage graph page state visited := by
  intro fuel
  induction fuel with
  | zero => intro page visited h; exact absurd h (Nat.not_lt_zero _)
  | succ f ih =>
    intro page visited h
    cases hc : visited.contains page with
    | true =>
      rw [gnnsp_visited hc]
      simp only [getNextNonSkippedPageFuel]
      rw [if_pos hc]
    | false =>
      cases hs : shouldSkipStep graph page state with
      | false =>
        rw [gnnsp_not_skipped hc hs]
        simp only [getNextNonSkippedPageFuel]
        rw [if_neg (bool_ne_true hc), if_neg (bool_ne_true hs)]
      | true =>
        obtain ⟨node, hnode⟩ := shouldSkipStep_getNode hs
        have hL : getNextNonSkippedPageFuel (f + 1) graph page state visited
            = (match resolveNextPage node state with
              | none => none
              | some np =>
                if np = "" ∨ graph.hasNode np = false then none
                else getNextNonSkippedPageFuel f graph np state (page :: visited)) := by
          simp only [getNextNonSkippedPageFuel]
          rw [if_neg (bool_ne_true hc), if_pos hs, hnode]
        rw [hL, gnnsp_skipped hc hs hnode]
        cases hres : resolveNextPage node state with
        | none => rfl
        | some np =>
          show (if np = "" ∨ graph.hasNode np = false then none
              else getNextNonSkippedPageFuel f graph np state (page :: visited))
            = (if np = "" ∨ graph.hasNode np = false then none
              else getNextNonSkippedPage graph np state (page :: visited))
          by_cases hcond : np = "" ∨ graph.hasNode np = false
          · rw [if_pos hcond, if_pos hcond]
          · rw [if_neg hcond, if_neg hcond]
            apply ih
            have hlt := unvisitedCount_cons_lt graph.keys visited page
              (getNode_mem_keys hnode)
              (by rw [contains_eq_decide_mem] at hc; simpa using hc)
            omega

theorem gpnspFuel_eq (graph : FlowGraph σ) (state : σ) :
    ∀ (fuel : Nat) (page : String) (visited : List String),
      unvisitedCount graph.keys visited < fuel →
      getPreviousNonSkippedPageFuel fuel graph page state visited
        = getPreviousNonSkippedPage graph page state visited := by
  intro fuel
  induction fuel with
  | zero => intro page visited h; exact absurd h (Nat.not_lt_zero _)
  | succ f ih =>
    intro page visited h
    cases hc : visited.contains page with
    | true =>
      rw [gpnsp_visited hc]
      simp only [getPreviousNonSkippedPageFuel]
      rw [if_pos hc]
    | false =>
      cases hnode : getNode graph page with
      | none =>
        rw [gpnsp_node_none hc hnode]
        simp only [getPreviousNonSkippedPageFuel]
        rw [if_neg (bool_ne_true hc), hnode]
      | some node =>
        have hL : getPreviousNonSkippedPageFuel (f + 1) graph page state visited
            = (match node.previousPageFallback with
              | none => none
              | some prev =>
                if prev = "" then none
                else if graph.hasNode prev = false then none
                else if shouldSkipStep graph prev state then
                  getPreviousNonSkippedPageFuel f graph prev state (page :: visited)
                else some prev) := by
          simp only [getPreviousNonSkippedPageFuel]
          rw [if_neg (bool_ne_true hc), hnode]
        rw [hL, gpnsp_step hc hnode]
        cases hprev : node.previousPageFallback with
        | none => rfl
        | some prev =>
          show (if prev = "" then none
              else if graph.hasNode prev = false then none
              else if shouldSkipStep graph prev state then
                getPreviousNonSkippedPageFuel f graph prev state (page :: visited)
              else some prev)
            = (if prev = "" then none
              else if graph.hasNode prev = false then none
              else if shouldSkipStep graph prev state then
                getPreviousNonSkippedPage graph prev state (page :: visited)
              else some prev)
          by_cases h1 : prev = ""
          · rw [if_pos h1, if_pos h1]
          · rw [if_neg h1, if_neg h1]
            by_cases h2 : graph.hasNode prev = false
            · rw [if_pos h2, if_pos h2]
            · rw [if_neg h2, if_neg h2]
              by_cases h3 : shouldSkipStep graph prev state = true
              · rw [if_pos h3, if_pos h3]
                apply ih
                have hlt := unvisitedCount_cons_lt graph.keys visited page
                  (getNode_mem_keys hnode)
                  (by rw [contains_eq_decide_mem] at hc; simpa using hc)
                omega
              · rw [if_neg h3, if_neg h3]

/-- C6: both skip walks run within a call depth bounded by the number of
graph nodes — the fuel-indexed variants with `|nodes| + 1` fuel (at most
`|nodes|` recursive steps) agree with the recursive functions from every
start page — and a walk whose page is already in the visited set detects
the cycle and returns null. -/
theorem C6_walks_terminate {σ : Type} (graph : FlowGraph σ) (page : String)
    (state : σ) :
    (getNextNonSkippedPageFuel (graph.nodes.length + 1) graph page state []
      = getNextNonSkippedPage graph page state [])
    ∧ (getPreviousNonSkippedPageFuel (graph.nodes.length + 1) graph page state []
      = getPreviousNonSkippedPage graph page state [])
    ∧ (∀ (visited : List String) (q : String), visited.contains q = true →
        getNextNonSkippedPage graph q state visited = none
        ∧ getPreviousNonSkippedPage graph q state visited = none) := by
  have hle : unvisitedCount graph.keys [] ≤ graph.keys.length :=
    List.length_filter_le _ _
  have hk : graph.keys.length = graph.nodes.length := List.length_map _ _
  have hm : unvisitedCount graph.keys [] < graph.nodes.length + 1 := by omega
  exact ⟨gnnspFuel_eq graph state _ page [] hm,
    gpnspFuel_eq graph state _ page [] hm,
    fun visited q hq => ⟨gnnsp_visited hq, gpnsp_visited hq⟩⟩

/-- C6 witness: on the §8 scenario graph, a walk starting at a page already
in the visited set returns null in both directions. -/
theorem C6_witness :
    getNextNonSkippedPage skipGraph "b" true ["b"] = none
    ∧ getPreviousNonSkippedPage skipGraph "b" true ["b"] = none :=
  (C6_walks_terminate skipGraph "b" true).2.2 ["b"] "b" rfl

/-! ### Claim C3 -/

/-- C3: entry validation at startup (with persisted state enabled, its
default).  An empty page id or the entry point itself validates to the
entry point (or null) for every value of the stored-state check; a
non-entry page id that is not a node yields the NotFound sentinel
regardless of session state; a known non-entry page with no session state
yields the Expired sentinel; otherwise the page id itself.  All outcomes
are returned values of the total function, never exceptions. -/
theorem C3_entry_validation {σ : Type} (graph : FlowGraph σ)
    (urlPage : Option String) (hasState : Bool) :
    ((jsTruthy urlPage = false ∨ urlPage = jsOrNull graph.entryPoint) →
      validateEntry graph urlPage true hasState = jsOrNull graph.entryPoint)
    ∧ (∀ p, urlPage = some p → jsTruthy urlPage = true →
        urlPage ≠ jsOrNull graph.entryPoint →
        (graph.hasNode p = false →
          validateEntry graph urlPage true hasState = some "__notfound__")
        ∧ (graph.hasNode p = true → hasState = false →
          validateEntry graph urlPage true hasState = some "__expired__")
        ∧ (graph.hasNode p = true → hasState = true →
          validateEntry graph urlPage true hasState = some p)) := by
  constructor
  · intro hemp
    simp only [validateEntry]
    rcases hemp with h | h
    · rw [h]
      simp
    · rw [h]
      simp
  · intro p hup htr hne
    subst hup
    have hbeq : (some p == jsOrNull graph.entryPoint) = false := by
      rw [Bool.eq_false_iff]
      intro hb
      exact hne (by simpa using hb)
    refine ⟨?_, ?_, ?_⟩
    · intro hn
      simp [validateEntry, hbeq, htr, hn]
    · intro hn hs
      simp [validateEntry, hbeq, htr, hn, hs]
    · intro hn hs
      simp [validateEntry, hbeq, htr, hn, hs]

/-- C3 witness: on the §8 scenario graph, landing deep on `d` with no
session state validates to the Expired sentinel. -/
theorem C3_witness :
    validateEntry skipGraph (some "d") true false = some "__expired__" :=
  ((C3_entry_validation skipGraph (some "d") false).2 "d" rfl (by decide)
    (by decide)).2.1 rfl rfl

/-! ### Claim C5 -/

theorem isErrorPage_false {cp : Option String} (h1 : cp ≠ some "__expired__")
    (h2 : cp ≠ some "__notfound__") : isErrorPage cp = false := by
  simp [isErrorPage, h1, h2]

/-- C5 counterexample: reconciling a location with no page id on a graph
with entry point `a` issues a `setParam` — a history push — not a replace
as the claim states. -/
theorem C5_counterexample :
    (reconcile singleGraph none none false false false ()).urlActions
      = [UrlAction.push "a"]
    ∧ UrlAction.push "a" ≠ UrlAction.replace "a"
    ∧ (reconcile singleGraph none none false false false ()).currentPage
      = some "a" := by
  refine ⟨rfl, by decide, rfl⟩

/-- C5 (amended): during reconciliation with no page id in the location and
a tracked current page that is not an error sentinel (reconciliation
returns early without changes on the sentinels): if the graph has a
(non-empty) entry point differing from the tracked current page, the
current page is set to the entry point and the location is updated via a
push (`setParam`), not a replace; if the graph has no entry point, the
tracked current page (null or a non-empty id) is cleared to null with no
location update. -/
theorem C5_reconcile_no_page {σ : Type} (graph : FlowGraph σ)
    (cp : Option String) (enS hS hI : Bool) (state : σ)
    (hexp : cp ≠ some "__expired__") (hnf : cp ≠ some "__notfound__") :
    (jsTruthy (jsOrNull graph.entryPoint) = true →
      jsOrNull graph.entryPoint ≠ cp →
      (reconcile graph none cp enS hS hI state).currentPage
          = jsOrNull graph.entryPoint
      ∧ (reconcile graph none cp enS hS hI state).urlActions
          = [UrlAction.push ((jsOrNull graph.entryPoint).getD "")])
    ∧ (jsOrNull graph.entryPoint = none →
      (cp = none ∨ jsTruthy cp = true) →
      (reconcile graph none cp enS hS hI state).currentPage = none
      ∧ (reconcile graph none cp enS hS hI state).urlActions = []) := by
  have herr : isErrorPage cp = false := isErrorPage_false hexp hnf
  constructor
  · intro hE hne
    have hbeq : (jsOrNull graph.entryPoint == cp) = false := by
      rw [Bool.eq_false_iff]
      intro hb
      exact hne (by simpa using hb)
    constructor <;> simp [reconcile, jsTruthy_none, herr, hbeq, hE]
  · intro hE hcp
    rcases hcp with h | h
    · subst h
      constructor <;> simp [reconcile, jsTruthy_none, herr, hE]
    · constructor <;> simp [reconcile, jsTruthy_none, herr, hE, h]

/-- C5 witness: on the one-node graph with entry point `a` and no tracked
page, reconciliation with no page id snaps to `a` via a push. -/
theorem C5_witness :
    (reconcile singleGraph none (some "x") true false false ()).currentPage
      = some "a"
    ∧ (reconcile singleGraph none (some "x") true false false ()).urlActions
      = [UrlAction.push "a"] :=
  (C5_reconcile_no_page singleGraph (some "x") true false false ()
    (by decide) (by decide)).1 (by decide) (by decide)

/-! ### Claim C7 -/

/-- The entry point produced by registering a list of nodes in order on top
of a current entry value: assigned only while the current value is
falsy. -/
def entryAfter (cur : Option String) (nodes : List (FlowNode σ)) :
    Option String :=
  nodes.foldl (fun e n => if jsTruthy e then e else some n.currentPage) cur

theorem entryAfter_of_truthy {e : Option String} (nodes : List (FlowNode σ))
    (h : jsTruthy e = true) : entryAfter e nodes = e := by
  induction nodes with
  | nil => rfl
  | cons n ns ih =>
    show entryAfter (if jsTruthy e then e else some n.currentPage) ns = e
    rw [if_pos h]
    exact ih

theorem hasNode_append_single (g : FlowGraph σ) (n : FlowNode σ) (i : String) :
    (FlowGraph.mk (g.nodes ++ [(n.currentPage, n)]) e).hasNode i
      = (g.hasNode i || (n.currentPage == i)) := by
  simp [FlowGraph.hasNode, List.any_append]

theorem registerNode_ok {g : FlowGraph σ} {n : FlowNode σ}
    (h : g.hasNode n.currentPage = false) :
    registerNode g n = Except.ok ⟨g.nodes ++ [(n.currentPage, n)],
      if jsTruthy g.entryPoint then g.entryPoint else some n.currentPage⟩ := by
  unfold registerNode
  rw [if_neg (bool_ne_true h)]

theorem registerNode_error {g : FlowGraph σ} {n : FlowNode σ}
    (h : g.hasNode n.currentPage = true) :
    registerNode g n
      = Except.error "Node with currentPage already exists in graph" := by
  unfold registerNode
  rw [if_pos h]

theorem foldRegister_ok_iff (nodes : List (FlowNode σ)) : ∀ (g : FlowGraph σ),
    (∃ g2, nodes.foldlM (fun a n => registerNode a n) g = Except.ok g2)
      ↔ ((nodes.map FlowNode.currentPage).Nodup
          ∧ ∀ i ∈ nodes.map FlowNode.currentPage, g.hasNode i = false) := by
  induction nodes with
  | nil =>
    intro g
    simp only [List.foldlM, List.map_nil, List.nodup_nil, List.not_mem_nil,
      false_implies, implies_true, and_self, iff_true]
    exact ⟨g, rfl⟩
  | cons n ns ih =>
    intro g
    show (∃ g2, (registerNode g n >>= fun g1 =>
        ns.foldlM (fun a n => registerNode a n) g1) = Except.ok g2) ↔ _
    by_cases hdup : g.hasNode n.currentPage = true
    · rw [registerNode_error hdup]
      constructor
      · intro ⟨g2, hg2⟩
        cases hg2
      · intro ⟨_, hall⟩
        have := hall n.currentPage (by simp)
        rw [this] at hdup
        cases hdup
    · have hfalse : g.hasNode n.currentPage = false := by
        cases hh : g.hasNode n.currentPage
        · rfl
        · exact absurd hh hdup
      rw [registerNode_ok hfalse]
      have hbind : ∀ g2, ((Except.ok (⟨g.nodes ++ [(n.currentPage, n)],
          if jsTruthy g.entryPoint then g.entryPoint else some n.currentPage⟩
            : FlowGraph σ) >>= fun g1 =>
          ns.foldlM (fun a n => registerNode a n) g1) = Except.ok g2)
          ↔ (ns.foldlM (fun a n => registerNode a n)
              ⟨g.nodes ++ [(n.currentPage, n)],
                if jsTruthy g.entryPoint then g.entryPoint
                else some n.currentPage⟩ = Except.ok g2) := by
        intro g2
        rfl
      constructor
      · intro ⟨g2, hg2⟩
        rw [hbind] at hg2
        obtain ⟨hnd, hall⟩ := (ih _).mp ⟨g2, hg2⟩
        have hnmem : n.currentPage ∉ ns.map FlowNode.currentPage := by
          intro hmem
          have := hall n.currentPage hmem
          rw [hasNode_append_single] at this
          simp at this
        refine ⟨?_, ?_⟩
        · rw [List.map_cons]
          exact List.nodup_cons.mpr ⟨hnmem, hnd⟩
        · intro i hi
          rcases List.mem_cons.mp hi with h | h
          · rw [h]
            exact hfalse
          · have := hall i h
            rw [hasNode_append_single] at this
            exact (Bool.or_eq_false_iff.mp this).1
      · intro ⟨hnd, hall⟩
        have hnmem : n.currentPage ∉ ns.map FlowNode.currentPage :=
          (List.nodup_cons.mp (by simpa using hnd)).1
        have hnd2 : (ns.map FlowNode.currentPage).Nodup :=
          (List.nodup_cons.mp (by simpa using hnd)).2
        have hall2 : ∀ i ∈ ns.map FlowNode.currentPage,
            (FlowGraph.mk (g.nodes ++ [(n.currentPage, n)])
              (if jsTruthy g.entryPoint then g.entryPoint
                else some n.currentPage)).hasNode i = false := by
          intro i hi
          rw [hasNode_append_single]
          have h1 : g.hasNode i = false := hall i (List.mem_cons_of_mem _ hi)
          have h2 : (n.currentPage == i) = false := by
            simp only [beq_eq_false_iff_ne, ne_eq]
            intro he
            exact hnmem (he ▸ hi)
          rw [h1, h2]
          rfl
        obtain ⟨g2, hg2⟩ := (ih _).mpr ⟨hnd2, hall2⟩
        exact ⟨g2, (hbind g2).mpr hg2⟩

theorem foldRegister_ok_spec (nodes : List (FlowNode σ)) :
    ∀ (g g2 : FlowGraph σ),
      nodes.foldlM (fun a n => registerNode a n) g = Except.ok g2 →
      g2.nodes = g.nodes ++ nodes.map (fun n => (n.currentPage, n))
      ∧ g2.entryPoint = entryAfter g.entryPoint nodes := by
  induction nodes with
  | nil =>
    intro g g2 h
    cases h
    simp [entryAfter]
  | cons n ns ih =>
    intro g g2 h
    by_cases hdup : g.hasNode n.currentPage = true
    · rw [show (n :: ns).foldlM (fun a n => registerNode a n) g
          = (registerNode g n >>= fun g1 =>
            ns.foldlM (fun a n => registerNode a n) g1) from rfl,
        registerNode_error hdup] at h
      cases h
    · have hfalse : g.hasNode n.currentPage = false := by
        cases hh : g.hasNode n.currentPage
        · rfl
        · exact absurd hh hdup
      have h2 : ns.foldlM (fun a n => registerNode a n)
          ⟨g.nodes ++ [(n.currentPage, n)],
            if jsTruthy g.entryPoint then g.entryPoint
            else some n.currentPage⟩ = Except.ok g2 := by
        rw [show (n :: ns).foldlM (fun a n => registerNode a n) g
            = (registerNode g n >>= fun g1 =>
              ns.foldlM (fun a n => registerNode a n) g1) from rfl,
          registerNode_ok hfalse] at h
        exact h
      obtain ⟨hn, he⟩ := ih _ g2 h2
      constructor
      · rw [hn]
        simp [List.append_assoc]
      · rw [he]
        rfl

theorem hasNode_iff_mem_ids {g : FlowGraph σ} {i : String} :
    g.hasNode i = true ↔ i ∈ g.keys := by
  unfold FlowGraph.hasNode FlowGraph.keys
  rw [List.any_eq_true]
  constructor
  · intro ⟨kv, hmem, hbeq⟩
    have : kv.1 = i := by simpa using hbeq
    subst this
    exact List.mem_map.mpr ⟨kv, hmem, rfl⟩
  · intro hmem
    obtain ⟨kv, hkv, hfst⟩ := List.mem_map.mp hmem
    exact ⟨kv, hkv, by simpa using hfst⟩

theorem initializeFlow_reduce_ok (ep : Option String)
    {nodes : List (FlowNode σ)} {g2 : FlowGraph σ}
    (hfold : nodes.foldlM (fun a n => registerNode a n) createFlowGraph
      = Except.ok g2) :
    initializeFlow nodes ep
      = (if jsTruthy ep then
          (if g2.hasNode (ep.getD "") = false then
            Except.error "Entry point does not exist in nodes"
          else Except.ok ⟨g2.nodes, ep⟩)
        else Except.ok g2) := by
  unfold initializeFlow
  rw [hfold]

theorem initializeFlow_reduce_error (ep : Option String)
    {nodes : List (FlowNode σ)} {e : String}
    (hfold : nodes.foldlM (fun a n => registerNode a n) createFlowGraph
      = Except.error e) :
    initializeFlow nodes ep = Except.error e := by
  unfold initializeFlow
  rw [hfold]

/-- C7 (amended): `registerNode` throws exactly on an already-registered
node id, and a registered node becomes the entry point exactly when the
current entry point is unset (or empty, which JavaScript treats as unset) —
so the first registered node with a non-empty id is the default.
`initializeFlow` throws when a *non-empty* explicitly supplied entry point
is not among the registered nodes (an empty-string argument is falsy and is
treated as not supplied), and a non-empty explicit entry point overrides
the default.  No other construction input throws. -/
theorem C7_construction_spec {σ : Type} :
    (∀ (g : FlowGraph σ) (n : FlowNode σ),
      (∃ e, registerNode g n = Except.error e)
        ↔ g.hasNode n.currentPage = true)
    ∧ (∀ (g g2 : FlowGraph σ) (n : FlowNode σ),
        registerNode g n = Except.ok g2 →
        g2.entryPoint = (if jsTruthy g.entryPoint then g.entryPoint
          else some n.currentPage))
    ∧ (∀ (nodes : List (FlowNode σ)) (ep : Option String),
        (∃ g, initializeFlow nodes ep = Except.ok g)
          ↔ ((nodes.map FlowNode.currentPage).Nodup
              ∧ (jsTruthy ep = true →
                  ep.getD "" ∈ nodes.map FlowNode.currentPage)))
    ∧ (∀ (nodes : List (FlowNode σ)) (ep : Option String) (g : FlowGraph σ),
        initializeFlow nodes ep = Except.ok g → jsTruthy ep = true →
        g.entryPoint = ep)
    ∧ (∀ (n : FlowNode σ) (rest : List (FlowNode σ)) (g : FlowGraph σ),
        initializeFlow (n :: rest) none = Except.ok g → n.currentPage ≠ "" →
        g.entryPoint = some n.currentPage) := by
  have hkeys : ∀ (nodes : List (FlowNode σ)) (g2 : FlowGraph σ),
      nodes.foldlM (fun a n => registerNode a n) createFlowGraph
        = Except.ok g2 →
      g2.keys = nodes.map FlowNode.currentPage := by
    intro nodes g2 h
    obtain ⟨hn, _⟩ := foldRegister_ok_spec nodes createFlowGraph g2 h
    unfold FlowGraph.keys
    rw [hn]
    show ((nodes.map (fun n => (n.currentPage, n))).map Prod.fst) = _
    rw [List.map_map]
    rfl
  refine ⟨?_, ?_, ?_, ?_, ?_⟩
  · intro g n
    by_cases hdup : g.hasNode n.currentPage = true
    · exact ⟨fun _ => hdup, fun _ => ⟨_, registerNode_error hdup⟩⟩
    · have hfalse : g.hasNode n.currentPage = false := by
        cases hh : g.hasNode n.currentPage
        · rfl
        · exact absurd hh hdup
      constructor
      · intro ⟨e, he⟩
        rw [registerNode_ok hfalse] at he
        cases he
      · intro h
        exact absurd h hdup
  · intro g g2 n h
    by_cases hdup : g.hasNode n.currentPage = true
    · rw [registerNode_error hdup] at h
      cases h
    · have hfalse : g.hasNode n.currentPage = false := by
        cases hh : g.hasNode n.currentPage
        · rfl
        · exact absurd hh hdup
      rw [registerNode_ok hfalse] at h
      cases h
      rfl
  · intro nodes ep
    cases hfold : nodes.foldlM (fun a n => registerNode a n) createFlowGraph with
    | error e =>
      constructor
      · intro ⟨g, hg⟩
        rw [initializeFlow_reduce_error ep hfold] at hg
        cases hg
      · intro ⟨hnd, _⟩
        obtain ⟨g2, hg2⟩ := (foldRegister_ok_iff nodes createFlowGraph).mpr
          ⟨hnd, fun i _ => rfl⟩
        rw [hfold] at hg2
        cases hg2
    | ok g2 =>
      have hred := initializeFlow_reduce_ok ep hfold
      have hnd : (nodes.map FlowNode.currentPage).Nodup :=
        ((foldRegister_ok_iff nodes createFlowGraph).mp ⟨g2, hfold⟩).1
      have hk := hkeys nodes g2 hfold
      by_cases htr : jsTruthy ep = true
      · rw [if_pos htr] at hred
        by_cases hmem : ep.getD "" ∈ nodes.map FlowNode.currentPage
        · have : g2.hasNode (ep.getD "") = true :=
            hasNode_iff_mem_ids.mpr (hk ▸ hmem)
          rw [if_neg (by rw [this]; simp)] at hred
          rw [hred] at *
          exact ⟨fun _ => ⟨hnd, fun _ => hmem⟩, fun _ => ⟨_, hred⟩⟩
        · have : g2.hasNode (ep.getD "") = false := by
            cases hh : g2.hasNode (ep.getD "")
            · rfl
            · exact absurd (hk ▸ hasNode_iff_mem_ids.mp hh) hmem
          rw [if_pos this] at hred
          constructor
          · intro ⟨g, hg⟩
            rw [hred] at hg
            cases hg
          · intro ⟨_, himp⟩
            exact absurd (himp htr) hmem
      · rw [if_neg htr] at hred
        exact ⟨fun _ => ⟨hnd, fun h => absurd h htr⟩, fun _ => ⟨g2, hred⟩⟩
  · intro nodes ep g h htr
    cases hfold : nodes.foldlM (fun a n => registerNode a n) createFlowGraph with
    | error e =>
      rw [initializeFlow_reduce_error ep hfold] at h
      cases h
    | ok g2 =>
      rw [initializeFlow_reduce_ok ep hfold, if_pos htr] at h
      by_cases hhas : g2.hasNode (ep.getD "") = false
      · rw [if_pos hhas] at h
        cases h
      · rw [if_neg hhas] at h
        cases h
        rfl
  · intro n rest g h hne
    cases hfold : (n :: rest).foldlM (fun a n => registerNode a n)
        createFlowGraph with
    | error e =>
      rw [initializeFlow_reduce_error none hfold] at h
      cases h
    | ok g2 =>
      obtain ⟨_, he⟩ := foldRegister_ok_spec (n :: rest) createFlowGraph g2 hfold
      rw [initializeFlow_reduce_ok none hfold] at h
      rw [if_neg (by simp [jsTruthy])] at h
      cases h
      rw [he]
      show entryAfter (if jsTruthy (none : Option String) then none
        else some n.currentPage) rest = some n.currentPage
      rw [if_neg (bool_ne_true (show jsTruthy none = false from rfl))]
      exact entryAfter_of_truthy rest (by simpa [jsTruthy] using hne)

/-- C7 counterexample: an explicitly supplied empty-string entry point that
is not among the registered nodes does not make `initializeFlow` throw —
the construction succeeds and keeps the first registered node as entry
point. -/
theorem C7_counterexample :
    initializeFlow [nodeA] (some "")
      = Except.ok (⟨[("a", nodeA)], some "a"⟩ : FlowGraph Unit)
    ∧ (FlowGraph.mk [("a", nodeA)] (some "a") : FlowGraph Unit).hasNode ""
      = false := by
  exact ⟨rfl, rfl⟩

/-- C7 witness: registering the same id twice errors; a fresh two-node
flow keeps the first node as entry point. -/
theorem C7_witness :
    (∃ e, registerNode (⟨[("a", nodeA)], some "a"⟩ : FlowGraph Unit) nodeA
      = Except.error e)
    ∧ ∀ g, initializeFlow [nodeA] none = Except.ok g →
        g.entryPoint = some "a" :=
  ⟨(C7_construction_spec.1 (⟨[("a", nodeA)], some "a"⟩ : FlowGraph Unit)
      nodeA).mpr rfl,
    fun g hg => C7_construction_spec.2.2.2.2 nodeA [] g hg (by decide)⟩

/-! ### Claim C8: the unchecked-cast read path over raw JSON blobs

`getPageStateEntries` runs `JSON.parse(stored) as PageStateEntry[]` with no
shape check, so a successfully parsed payload of the wrong shape is
returned as if it were an entry list.  The fragment of the JSON value
space below is enough to express the two wrong shapes the operations then
crash on: a non-array top-level value (`entries.find` is not a function)
and an array entry missing the `state` property
(`entry.state[key] = value` assigns into undefined). -/

/-- A parsed array element: an object with `page`, with or without a
`state` object. -/
inductive JsonEntryShape (V : Type) where
  | withState (page : String) (state : List (String × V))
  | missingState (page : String)
deriving DecidableEq

/-- The `page` property (present in both shapes). -/
def JsonEntryShape.page : JsonEntryShape V → String
  | JsonEntryShape.withState p _ => p
  | JsonEntryShape.missingState p => p

/-- A successfully parsed top-level JSON value: an array of entry-shaped
objects, or anything that is not an array (a number, a plain object, …). -/
inductive JsonShape (V : Type) where
  | arrayOfEntries (entries : List (JsonEntryShape V))
  | nonArray
deriving DecidableEq

/-- A raw session-storage blob: either `JSON.parse` succeeds and yields the
given value (which the source casts, unchecked, to `PageStateEntry[]`), or
the parse throws and the `catch` returns the empty list. -/
inductive RawBlob (V : Type) where
  | parses (val : JsonShape V)
  | parseError (raw : String)
deriving DecidableEq

structure RawStorage (V : Type) where
  items : List (String × RawBlob V)
  writeFails : Bool
deriving DecidableEq

namespace WSM

/-- `getPageStateEntries` over raw blobs: what the function actually
returns once the unchecked cast is taken into account.  The absent-medium,
absent-key and parse-failure branches all return the empty array. -/
def getPageStateEntriesRaw (med : Option (RawStorage V)) (pfx uuid : String) :
    JsonShape V :=
  match med with
  | none => JsonShape.arrayOfEntries []
  | some st =>
    match objGet st.items (storageKey pfx uuid) with
    | none => JsonShape.arrayOfEntries []
    | some (RawBlob.parses val) => val
    | some (RawBlob.parseError _) => JsonShape.arrayOfEntries []

/-- `setPageStateEntries` over raw storage (same guards as the
manager-consistent model). -/
def setPageStateEntriesRaw (med : Option (RawStorage V)) (pfx uuid : String)
    (entries : List (JsonEntryShape V)) : Option (RawStorage V) :=
  match med with
  | none => med
  | some st =>
    if st.writeFails then some st
    else some ⟨objSet st.items (storageKey pfx uuid)
      (RawBlob.parses (JsonShape.arrayOfEntries entries)), st.writeFails⟩

/-- `getState` over raw blobs: `entries.find(...)` throws a TypeError when
the cast value is not an array; a found entry without `state` still reads
as the empty object through `entry?.state || {}`. -/
def getStateRaw (med : Option (RawStorage V)) (pfx uuid page : String) :
    Except String (List (String × V)) :=
  match getPageStateEntriesRaw med pfx uuid with
  | JsonShape.nonArray =>
    Except.error "TypeError: entries.find is not a function"
  | JsonShape.arrayOfEntries entries =>
    match entries.find? (fun e => e.page == page) with
    | some (JsonEntryShape.withState _ st) => Except.ok st
    | some (JsonEntryShape.missingState _) => Except.ok []
    | none => Except.ok []

/-- In-place update of the first entry for a page (the found entry is
mutated inside the array before the array is stored back). -/
def updateFirstJson (page : String)
    (f : List (String × V) → List (String × V)) :
    List (JsonEntryShape V) → List (JsonEntryShape V)
  | [] => []
  | e :: rest =>
    if e.page == page then
      (match e with
        | JsonEntryShape.withState p st => JsonEntryShape.withState p (f st)
        | JsonEntryShape.missingState p => JsonEntryShape.missingState p)
        :: rest
    else e :: updateFirstJson page f rest

/-- `setState` over raw blobs: `entries.find(...)` throws on a non-array
value, and `entry.state[key] = value` throws when the found entry has no
`state` object. -/
def setStateRaw (med : Option (RawStorage V)) (pfx uuid page key : String)
    (value : V) : Except String (Option (RawStorage V)) :=
  match getPageStateEntriesRaw med pfx uuid with
  | JsonShape.nonArray =>
    Except.error "TypeError: entries.find is not a function"
  | JsonShape.arrayOfEntries entries =>
    match entries.find? (fun e => e.page == page) with
    | some (JsonEntryShape.missingState _) =>
      Except.error "TypeError: cannot set properties of undefined"
    | some (JsonEntryShape.withState _ _) =>
      Except.ok (setPageStateEntriesRaw med pfx uuid
        (updateFirstJson page (fun st => objSet st key value) entries))
    | none =>
      Except.ok (setPageStateEntriesRaw med pfx uuid
        (entries ++ [JsonEntryShape.withState page (objSet [] key value)]))

end WSM

/-- C8 (code bug): the claim says no operation ever throws and a corrupt
payload reads as empty, but the unchecked cast lets wrong-shape JSON
through: with the stored blob `"5"` (valid JSON, not an array) `getState`
throws a TypeError at `entries.find`, and with a stored array whose entry
has `page` but no `state` object, `setState` throws at the
`entry.state[key] = value` assignment.  A blob whose parse fails is, by
contrast, correctly caught and read as empty — matching the behavior the
claim states. -/
theorem C8_malformed_blob_throws :
    WSM.getStateRaw
      (some (⟨[("wizard:u", RawBlob.parses (JsonShape.nonArray))], false⟩
        : RawStorage Nat)) "wizard:" "u" "p"
      = Except.error "TypeError: entries.find is not a function"
    ∧ WSM.setStateRaw
      (some (⟨[("wizard:u", RawBlob.parses (JsonShape.arrayOfEntries
          [JsonEntryShape.missingState "p"]))], false⟩ : RawStorage Nat))
      "wizard:" "u" "p" "k" 0
      = Except.error "TypeError: cannot set properties of undefined"
    ∧ WSM.getStateRaw
      (some (⟨[("wizard:u", RawBlob.parseError "not json")], false⟩
        : RawStorage Nat)) "wizard:" "u" "p"
      = Except.ok [] := by
  refine ⟨rfl, rfl, rfl⟩

/-- A one-node wizard graph fixture. -/
def wizNodeW : WizardNode Unit := ⟨"w", none, none, none⟩

def wizGraph1 : WizardGraph Unit := ⟨[("w", wizNodeW)], some "w"⟩

/-! ### Association-list object lemmas shared by C9 and C10 -/

theorem find?_pair_cons_pos {α : Type} {k2 k : String} {v2 : α}
    (rest : List (String × α)) (h : (k2 == k) = true) :
    List.find? (fun kv => kv.1 == k) ((k2, v2) :: rest) = some (k2, v2) :=
  List.find?_cons_of_pos _ h

theorem find?_pair_cons_neg {α : Type} {k2 k : String} {v2 : α}
    (rest : List (String × α)) (h : (k2 == k) = false) :
    List.find? (fun kv => kv.1 == k) ((k2, v2) :: rest)
      = List.find? (fun kv => kv.1 == k) rest :=
  List.find?_cons_of_neg _ (bool_ne_true h)

theorem objGet_cons {α : Type} (k2 : String) (v2 : α)
    (rest : List (String × α)) (k : String) :
    objGet ((k2, v2) :: rest) k
      = if (k2 == k) = true then some v2 else objGet rest k := by
  by_cases h : (k2 == k) = true
  · rw [if_pos h]
    unfold objGet
    rw [find?_pair_cons_pos rest h]
    rfl
  · rw [if_neg h]
    unfold objGet
    rw [find?_pair_cons_neg rest (by simpa using h)]

theorem objSet_cons_eq {k2 k : String} {v2 : α} (rest : List (String × α))
    (v : α) (h : (k2 == k) = true) :
    objSet ((k2, v2) :: rest) k v = (k, v) :: rest := by
  show (if k2 == k then (k, v) :: rest else (k2, v2) :: objSet rest k v) = _
  rw [if_pos h]

theorem objSet_cons_ne {k2 k : String} {v2 : α} (rest : List (String × α))
    (v : α) (h : (k2 == k) = false) :
    objSet ((k2, v2) :: rest) k v = (k2, v2) :: objSet rest k v := by
  show (if k2 == k then (k, v) :: rest else (k2, v2) :: objSet rest k v) = _
  rw [if_neg (bool_ne_true h)]

theorem objGet_objSet_self {α : Type} :
    ∀ (items : List (String × α)) (k : String) (v : α),
      objGet (objSet items k v) k = some v := by
  intro items
  induction items with
  | nil =>
    intro k v
    show objGet [(k, v)] k = some v
    rw [objGet_cons]
    rw [if_pos (by simp)]
  | cons kv rest ih =>
    intro k v
    obtain ⟨k2, v2⟩ := kv
    by_cases h : (k2 == k) = true
    · rw [objSet_cons_eq rest v h, objGet_cons, if_pos (by simp)]
    · rw [objSet_cons_ne rest v (by simpa using h), objGet_cons,
        if_neg (by simpa using h)]
      exact ih k v

theorem objGet_objSet_other {α : Type} {k1 k : String} (h : (k1 == k) = false) :
    ∀ (items : List (String × α)) (v : α),
      objGet (objSet items k1 v) k = objGet items k := by
  intro items
  induction items with
  | nil =>
    intro v
    show objGet [(k1, v)] k = objGet [] k
    rw [objGet_cons, if_neg (bool_ne_true h)]
  | cons kv rest ih =>
    intro v
    obtain ⟨k2, v2⟩ := kv
    by_cases h2 : (k2 == k1) = true
    · rw [objSet_cons_eq rest v h2, objGet_cons, if_neg (bool_ne_true h),
        objGet_cons]
      have : (k2 == k) = false := by
        have he : k2 = k1 := by simpa using h2
        rw [he]
        exact h
      rw [if_neg (bool_ne_true this)]
    · rw [objSet_cons_ne rest v (by simpa using h2), objGet_cons, objGet_cons]
      by_cases h3 : (k2 == k) = true
      · rw [if_pos h3, if_pos h3]
      · rw [if_neg h3, if_neg h3]
        exact ih v

theorem objGet_removeKey {α : Type} (items : List (String × α)) (k : String) :
    objGet (removeKey items k) k = none := by
  have hfind : (items.filter (fun kv => !(kv.1 == k))).find?
      (fun kv => kv.1 == k) = none := by
    rw [List.find?_eq_none]
    intro x hx
    have := (List.mem_filter.mp hx).2
    simpa using this
  unfold objGet removeKey
  rw [hfind]
  rfl

/-! ### Claim C9 -/

theorem updateEntryState_cons_eq {V : Type} {e : PageStateEntry V}
    {page : String} (rest : List (PageStateEntry V))
    (f : List (String × V) → List (String × V)) (h : (e.page == page) = true) :
    WSM.updateEntryState (e :: rest) page f = ⟨e.page, f e.state⟩ :: rest := by
  show (if e.page == page then (⟨e.page, f e.state⟩ : PageStateEntry V) :: rest
    else e :: WSM.updateEntryState rest page f) = _
  rw [if_pos h]

theorem updateEntryState_cons_ne {V : Type} {e : PageStateEntry V}
    {page : String} (rest : List (PageStateEntry V))
    (f : List (String × V) → List (String × V)) (h : (e.page == page) = false) :
    WSM.updateEntryState (e :: rest) page f
      = e :: WSM.updateEntryState rest page f := by
  show (if e.page == page then (⟨e.page, f e.state⟩ : PageStateEntry V) :: rest
    else e :: WSM.updateEntryState rest page f) = _
  rw [if_neg (bool_ne_true h)]

theorem find?_entry_cons_pos {V : Type} {e : PageStateEntry V} {page : String}
    (rest : List (PageStateEntry V)) (h : (e.page == page) = true) :
    List.find? (fun e => e.page == page) (e :: rest) = some e :=
  List.find?_cons_of_pos _ h

theorem find?_entry_cons_neg {V : Type} {e : PageStateEntry V} {page : String}
    (rest : List (PageStateEntry V)) (h : (e.page == page) = false) :
    List.find? (fun e => e.page == page) (e :: rest)
      = List.find? (fun e => e.page == page) rest :=
  List.find?_cons_of_neg _ (bool_ne_true h)

theorem find?_updateEntryState {V : Type} (page : String)
    (f : List (String × V) → List (String × V)) :
    ∀ (entries : List (PageStateEntry V)) (e0 : PageStateEntry V),
      entries.find? (fun e => e.page == page) = some e0 →
      (WSM.updateEntryState entries page f).find? (fun e => e.page == page)
        = some ⟨e0.page, f e0.state⟩ := by
  intro entries
  induction entries with
  | nil => intro e0 h; cases h
  | cons e rest ih =>
    intro e0 h
    by_cases hp : (e.page == page) = true
    · rw [find?_entry_cons_pos rest hp] at h
      cases h
      rw [updateEntryState_cons_eq rest f hp]
      exact find?_entry_cons_pos rest hp
    · rw [find?_entry_cons_neg rest (by simpa using hp)] at h
      rw [updateEntryState_cons_ne rest f (by simpa using hp)]
      rw [find?_entry_cons_neg (WSM.updateEntryState rest page f)
        (by simpa using hp)]
      exact ih e0 h

theorem any_find?_some {V : Type} {entries : List (PageStateEntry V)}
    {page : String} (h : entries.any (fun e => e.page == page) = true) :
    ∃ e0, entries.find? (fun e => e.page == page) = some e0 := by
  cases hf : entries.find? (fun e => e.page == page) with
  | some e0 => exact ⟨e0, rfl⟩
  | none =>
    obtain ⟨x, hx, hpx⟩ := List.any_eq_true.mp h
    have := List.find?_eq_none.mp hf x hx
    exact absurd hpx this

theorem setPageStateEntries_ok {V : Type} (pfx uuid : String)
    {st : Storage V} (hw : st.writeFails = false)
    (entries : List (PageStateEntry V)) :
    WSM.setPageStateEntries (some st) pfx uuid entries
      = some ⟨objSet st.items (WSM.storageKey pfx uuid)
          (StoredBlob.good entries), st.writeFails⟩ := by
  show (if st.writeFails = true then some st
    else some (⟨objSet st.items (WSM.storageKey pfx uuid)
      (StoredBlob.good entries), st.writeFails⟩ : Storage V)) = _
  rw [if_neg (bool_ne_true hw)]

theorem getPageStateEntries_after_set {V : Type} (pfx uuid : String)
    (items : List (String × StoredBlob V))
    (entries : List (PageStateEntry V)) (wf : Bool) :
    WSM.getPageStateEntries
      (some ⟨objSet items (WSM.storageKey pfx uuid) (StoredBlob.good entries),
        wf⟩) pfx uuid = entries := by
  show (match objGet (objSet items (WSM.storageKey pfx uuid)
      (StoredBlob.good entries)) (WSM.storageKey pfx uuid) with
    | none => []
    | some (StoredBlob.good e) => e
    | some (StoredBlob.corrupt _) => ([] : List (PageStateEntry V))) = entries
  rw [objGet_objSet_self]

theorem setState_reduce {V : Type} (pfx uuid page key : String) (value : V)
    (st : Storage V) :
    WSM.setState (some st) pfx uuid page key value
      = WSM.setPageStateEntries (some st) pfx uuid
          (if (WSM.getPageStateEntries (some st) pfx uuid).any
              (fun e => e.page == page) then
            WSM.updateEntryState (WSM.getPageStateEntries (some st) pfx uuid)
              page (fun s => objSet s key value)
          else (WSM.getPageStateEntries (some st) pfx uuid)
            ++ [⟨page, objSet [] key value⟩]) := rfl

/-- C9: with an available, functioning storage medium, after
`setState(u, p, k, v)` the map `getState(u, p)` binds `k` to `v`; and after
`clearState(u)`, `hasState(u)` is false and `getState(u, p)` is the empty
map for every page. -/
theorem C9_round_trip {V : Type} (pfx uuid page key : String) (value : V)
    (st : Storage V) (hw : st.writeFails = false) :
    objGet (WSM.getState (WSM.setState (some st) pfx uuid page key value)
      pfx uuid page) key = some value
    ∧ (∀ (med : Medium V) (p : String),
        WSM.hasState (WSM.clearState med pfx uuid) pfx uuid = false
        ∧ WSM.getState (WSM.clearState med pfx uuid) pfx uuid p = []) := by
  constructor
  · rw [setState_reduce]
    cases hany : (WSM.getPageStateEntries (some st) pfx uuid).any
        (fun e => e.page == page) with
    | true =>
      rw [if_pos rfl, setPageStateEntries_ok pfx uuid hw]
      obtain ⟨e0, hfind⟩ := any_find?_some hany
      unfold WSM.getState
      rw [getPageStateEntries_after_set,
        find?_updateEntryState page (fun s => objSet s key value) _ e0 hfind]
      exact objGet_objSet_self e0.state key value
    | false =>
      rw [if_neg (by simp), setPageStateEntries_ok pfx uuid hw]
      unfold WSM.getState
      rw [getPageStateEntries_after_set]
      have hnone : (WSM.getPageStateEntries (some st) pfx uuid).find?
          (fun e => e.page == page) = none := by
        rw [List.find?_eq_none]
        intro x hx hpx
        have hx2 : (WSM.getPageStateEntries (some st) pfx uuid).any
            (fun e => e.page == page) = true :=
          List.any_eq_true.mpr ⟨x, hx, hpx⟩
        rw [hx2] at hany
        cases hany
      rw [List.find?_append, hnone]
      rw [show List.find? (fun e => e.page == page)
          [(⟨page, objSet [] key value⟩ : PageStateEntry V)]
          = some ⟨page, objSet [] key value⟩ from
        find?_entry_cons_pos [] (by simp)]
      exact objGet_objSet_self [] key value
  · intro med p
    cases med with
    | none => exact ⟨rfl, rfl⟩
    | some st2 =>
      have hclear : WSM.clearState (some st2) pfx uuid
          = some ⟨removeKey st2.items (WSM.storageKey pfx uuid),
            st2.writeFails⟩ := rfl
      rw [hclear]
      constructor
      · show (match objGet (removeKey st2.items (WSM.storageKey pfx uuid))
            (WSM.storageKey pfx uuid) with
          | none => false
          | some (StoredBlob.good _) => true
          | some (StoredBlob.corrupt raw) => (raw ≠ "" : Bool)) = false
        rw [objGet_removeKey]
      · show (match (WSM.getPageStateEntries
            (some ⟨removeKey st2.items (WSM.storageKey pfx uuid),
              st2.writeFails⟩) pfx uuid).find? (fun e => e.page == p) with
          | some entry => entry.state
          | none => ([] : List (String × V))) = []
        have hemp : WSM.getPageStateEntries
            (some ⟨removeKey st2.items (WSM.storageKey pfx uuid),
              st2.writeFails⟩) pfx uuid = [] := by
          show (match objGet (removeKey st2.items (WSM.storageKey pfx uuid))
              (WSM.storageKey pfx uuid) with
            | none => []
            | some (StoredBlob.good e) => e
            | some (StoredBlob.corrupt _) => ([] : List (PageStateEntry V)))
            = []
          rw [objGet_removeKey]
        rw [hemp]
        rfl

/-- C9 witness: concrete round trip on an empty working store. -/
theorem C9_witness :
    objGet (WSM.getState
      (WSM.setState (some (⟨[], false⟩ : Storage Nat)) "wizard:" "u" "a" "k" 7)
      "wizard:" "u" "a") "k" = some 7
    ∧ WSM.hasState
        (WSM.clearState (some (⟨[], false⟩ : Storage Nat)) "wizard:" "u")
        "wizard:" "u" = false :=
  ⟨(C9_round_trip "wizard:" "u" "a" "k" 7 ⟨[], false⟩ rfl).1,
    ((C9_round_trip "wizard:" "u" "a" "k" 7 ⟨[], false⟩ rfl).2
      (some ⟨[], false⟩) "a").1⟩

/-! ### Claim C10 -/

theorem objGet_eq_none_of_not_mem {α : Type} {items : List (String × α)}
    {k : String} (h : k ∉ items.map Prod.fst) : objGet items k = none := by
  have hfind : items.find? (fun kv => kv.1 == k) = none := by
    rw [List.find?_eq_none]
    intro kv hkv hbeq
    have hk : kv.1 = k := by simpa using hbeq
    exact h (by rw [← hk]; exact List.mem_map.mpr ⟨kv, hkv, rfl⟩)
  unfold objGet
  rw [hfind]
  rfl

theorem objGet_objAssign {α : Type} (k : String) :
    ∀ (st acc : List (String × α)), (st.map Prod.fst).Nodup →
      objGet (objAssign acc st) k
        = match objGet st k with
          | some v => some v
          | none => objGet acc k := by
  intro st
  induction st with
  | nil => intro acc _; rfl
  | cons kv rest ih =>
    intro acc hnd
    obtain ⟨k1, v1⟩ := kv
    have hnd2 : (rest.map Prod.fst).Nodup :=
      (List.nodup_cons.mp (by simpa using hnd)).2
    have hnmem : k1 ∉ rest.map Prod.fst :=
      (List.nodup_cons.mp (by simpa using hnd)).1
    have hassign : objAssign acc ((k1, v1) :: rest)
        = objAssign (objSet acc k1 v1) rest := rfl
    rw [hassign, ih (objSet acc k1 v1) hnd2, objGet_cons]
    by_cases hk : (k1 == k) = true
    · rw [if_pos hk]
      have hkeq : k1 = k := by simpa using hk
      have hrest : objGet rest k = none :=
        objGet_eq_none_of_not_mem (by rw [← hkeq]; exact hnmem)
      rw [hrest]
      show objGet (objSet acc k1 v1) k = some v1
      rw [hkeq]
      exact objGet_objSet_self acc k v1
    · rw [if_neg hk]
      cases hr : objGet rest k with
      | some v => rfl
      | none =>
        show objGet (objSet acc k1 v1) k = objGet acc k
        exact objGet_objSet_other (by simpa using hk) acc v1

theorem getAll_fold_get {V : Type} (k : String) :
    ∀ (entries : List (PageStateEntry V)) (acc : List (String × V)),
      (∀ e ∈ entries, (e.state.map Prod.fst).Nodup) →
      objGet (entries.foldl (fun acc e => objAssign acc e.state) acc) k
        = entries.foldl (fun r e =>
            match objGet e.state k with
            | some v => some v
            | none => r) (objGet acc k) := by
  intro entries
  induction entries with
  | nil => intro acc _; rfl
  | cons e rest ih =>
    intro acc hnd
    have h1 := ih (objAssign acc e.state)
      (fun x hx => hnd x (List.mem_cons_of_mem _ hx))
    rw [show ((e :: rest).foldl (fun acc e => objAssign acc e.state) acc)
        = (rest.foldl (fun acc e => objAssign acc e.state)
            (objAssign acc e.state)) from rfl]
    rw [h1]
    rw [show ((e :: rest).foldl (fun r e =>
          match objGet e.state k with
          | some v => some v
          | none => r) (objGet acc k))
        = (rest.foldl (fun r e =>
            match objGet e.state k with
            | some v => some v
            | none => r)
            (match objGet e.state k with
              | some v => some v
              | none => objGet acc k)) from rfl]
    congr 1
    exact objGet_objAssign k e.state acc (hnd e (List.mem_cons_self _ _))

/-- C10: `getAllState` is the flattened last-write-wins view: looking up a
key in it yields the value of the last stored entry (in the entries'
stored, first-write order) whose own state binds that key — page ids are
never introduced as namespace keys (every binding comes from some entry
state).  Stated for entries whose states have no duplicate keys, as
JavaScript objects cannot. -/
theorem C10_getAllState_flattened {V σ : Type} (graph : WizardGraph σ)
    (med : Medium V) (pfx uuid k : String)
    (hnd : ∀ e ∈ WSM.getPageStateEntries med pfx uuid,
      (e.state.map Prod.fst).Nodup) :
    objGet (WSM.getAllState graph med pfx uuid) k
      = (WSM.getPageStateEntries med pfx uuid).foldl
          (fun r e =>
            match objGet e.state k with
            | some v => some v
            | none => r) none := by
  unfold WSM.getAllState
  have h := getAll_fold_get k (WSM.getPageStateEntries med pfx uuid) [] hnd
  exact h

/-- Storage fixture for the C10 witness: two pages both bind `x`. -/
def stoW : Storage Nat :=
  ⟨[("wizard:u", StoredBlob.good [⟨"p1", [("x", 1)]⟩, ⟨"p2", [("x", 2)]⟩])],
    false⟩

/-- C10 witness: with `p1` and `p2` both binding `x` (in stored order), the
flattened accumulated state yields the later value, and no `p1`/`p2`
namespace keys appear. -/
theorem C10_witness :
    objGet (WSM.getAllState wizGraph1 (some stoW) "wizard:" "u") "x" = some 2
    ∧ objGet (WSM.getAllState wizGraph1 (some stoW) "wizard:" "u") "p1"
      = none := by
  constructor
  · have h := C10_getAllState_flattened wizGraph1 (some stoW) "wizard:" "u" "x"
      (by decide)
    rw [h]
    rfl
  · have h := C10_getAllState_flattened wizGraph1 (some stoW) "wizard:" "u" "p1"
      (by decide)
    rw [h]
    rfl

end Maestro
